import Mathlib

set_option maxHeartbeats 1000000

/-!
Verification development for the `lnkd_apb` repository.

The repository is a React frontend plus a thin backend whose one piece of
non-trivial logic is the job-posting scraper lifecycle (browser pooling,
rate limiting, exponential-backoff retries).  The backend Python sources are
not part of the file set; the scraper subsystem is therefore modelled from
the repository specification and its fix notes, while the frontend pieces
(`JobPostingForm.jsx`, the resume-upload component, `services/api.js`) are
embedded directly from their JavaScript sources.
-/

namespace LnkdApb

namespace Scraper

/-- Modelled from the spec: ScrapeManager configuration (§3 of the spec;
`job_scraper.py` is absent from the file set). -/
structure Config where
  minDelaySeconds : Nat
  maxRetries : Nat
  pageTimeoutMs : Nat
deriving DecidableEq, Repr

/-- Modelled from the spec: structured fields extracted from a rendered
job-posting page. -/
structure ScrapeResult where
  title : String
  company : String
  description : String
deriving DecidableEq, Repr

/-- Modelled from the spec: mutable state of the ScrapeManager.  Browser
processes are identified by a freshness counter `nextBrowserId`. -/
structure ManagerState where
  browserHandle : Option Nat
  lastScrapeTimestamp : Option Nat
  nextBrowserId : Nat
deriving DecidableEq, Repr

/-- Observable actions issued by the manager to its clock/sleep and
browser-automation capabilities, in order. -/
inductive Event where
  | gateSleep (seconds : Nat)
  | backoffSleep (retry : Nat) (seconds : Nat)
  | launch (id : Nat)
  | kill (id : Nat)
  | openCtx (attempt : Nat)
  | navigate (attempt : Nat) (url : String) (time : Nat)
  | closeCtx (attempt : Nat)
deriving DecidableEq, Repr

/-- Environment of one scrape call: the outcome of each attempt index
(success with extracted fields, or a failure), and the wall-clock seconds
the attempt's navigation and extraction consume. -/
structure Env where
  outcome : Nat → Except String ScrapeResult
  dur : Nat → Nat

/-- Modelled from the spec: the rate-limit gate computes the remaining
suspension needed so that at least `minDelaySeconds` elapse after
`lastScrapeTimestamp` (§4.1 step 1). -/
def gateDelay (cfg : Config) (now : Nat) (last : Option Nat) : Nat :=
  match last with
  | none => 0
  | some t => if now - t < cfg.minDelaySeconds then cfg.minDelaySeconds - (now - t) else 0

/-- Sleep events emitted by the rate-limit gate (none when no wait is due). -/
def gateEvents (d : Nat) : List Event :=
  if d = 0 then [] else [Event.gateSleep d]

/-- Modelled from the spec: browser management at the start of attempt `k`
(§4.1 step 2a): lazily launch on the first attempt, terminate and relaunch
unconditionally on attempts after a failure. -/
def ensureBrowser (k : Nat) (st : ManagerState) : ManagerState × List Event :=
  if k = 0 then
    match st.browserHandle with
    | some _ => (st, [])
    | none =>
        ({ st with browserHandle := some st.nextBrowserId, nextBrowserId := st.nextBrowserId + 1 },
         [Event.launch st.nextBrowserId])
  else
    match st.browserHandle with
    | some b =>
        ({ st with browserHandle := some st.nextBrowserId, nextBrowserId := st.nextBrowserId + 1 },
         [Event.kill b, Event.launch st.nextBrowserId])
    | none =>
        ({ st with browserHandle := some st.nextBrowserId, nextBrowserId := st.nextBrowserId + 1 },
         [Event.launch st.nextBrowserId])

/-- Outcome of one `scrapeJob` call: final result, wall-clock time at
return, manager state at return, and the emitted event trace. -/
structure RunResult where
  result : Except String ScrapeResult
  finalTime : Nat
  finalState : ManagerState
  trace : List Event
deriving Repr

/-- Modelled from the spec: the attempt loop of `scrape_job` (§4.1 step 2).
`fuel` is the number of attempts still allowed, `k` the index of the next
attempt.  Each iteration runs the rate-limit gate, ensures a browser,
opens an isolated context, navigates (stamping `lastScrapeTimestamp` with
the attempt's start time), closes the context, and on failure either
suspends for the exponential backoff `2 ^ (k+1)` before retry `k+1` or
surfaces the last error. -/
def scrapeLoop (cfg : Config) (env : Env) (url : String) :
    Nat → Nat → Nat → ManagerState → RunResult
  | 0, now, _, st => ⟨Except.error "no attempts", now, st, []⟩
  | fuel + 1, now, k, st =>
    let d := gateDelay cfg now st.lastScrapeTimestamp
    let now1 := now + d
    let bb := ensureBrowser k st
    let st2 : ManagerState := { bb.fst with lastScrapeTimestamp := some now1 }
    let now2 := now1 + env.dur k
    match env.outcome k with
    | Except.ok r =>
        ⟨Except.ok r, now2, st2,
         gateEvents d ++ (bb.snd ++
           (Event.openCtx k :: Event.navigate k url now1 :: Event.closeCtx k :: []))⟩
    | Except.error e =>
      match fuel with
      | 0 =>
          ⟨Except.error e, now2, st2,
           gateEvents d ++ (bb.snd ++
             (Event.openCtx k :: Event.navigate k url now1 :: Event.closeCtx k :: []))⟩
      | fuel2 + 1 =>
        let b := 2 ^ (k + 1)
        let rest := scrapeLoop cfg env url (fuel2 + 1) (now2 + b) (k + 1) st2
        ⟨rest.result, rest.finalTime, rest.finalState,
         gateEvents d ++ (bb.snd ++
           (Event.openCtx k :: Event.navigate k url now1 :: Event.closeCtx k ::
             Event.backoffSleep (k + 1) b :: rest.trace))⟩

/-- Modelled from the spec: `scrapeJob(url)` performs up to
`maxRetries + 1` attempts starting at attempt index 0. -/
def scrapeJob (cfg : Config) (env : Env) (url : String) (now : Nat) (st : ManagerState) :
    RunResult :=
  scrapeLoop cfg env url (cfg.maxRetries + 1) now 0 st

/-- Modelled from the spec: `cleanup()` terminates the owned browser
process if one exists and is a no-op otherwise (§4.1). -/
def cleanup (st : ManagerState) : ManagerState × List Event :=
  match st.browserHandle with
  | none => (st, [])
  | some b => ({ st with browserHandle := none }, [Event.kill b])

/-- Navigation start time carried by a navigate event. -/
def navTimeOf : Event → Option Nat
  | Event.navigate _ _ t => some t
  | _ => none

/-- Attempt index carried by a navigate event. -/
def navIdxOf : Event → Option Nat
  | Event.navigate k _ _ => some k
  | _ => none

/-- Attempt index carried by a context-open event. -/
def openIdxOf : Event → Option Nat
  | Event.openCtx k => some k
  | _ => none

/-- Attempt index carried by a context-close event. -/
def closeIdxOf : Event → Option Nat
  | Event.closeCtx k => some k
  | _ => none

/-- Browser id carried by a launch event. -/
def launchIdOf : Event → Option Nat
  | Event.launch b => some b
  | _ => none

/-- Browser id carried by a kill event. -/
def killIdOf : Event → Option Nat
  | Event.kill b => some b
  | _ => none

/-- Start times of the attempts recorded in a trace, in order. -/
def navTimes (tr : List Event) : List Nat := tr.filterMap navTimeOf

/-- Attempt indices recorded in a trace, in order. -/
def navIdxs (tr : List Event) : List Nat := tr.filterMap navIdxOf

/-- Attempt indices of the contexts opened in a trace, in order. -/
def openIdxs (tr : List Event) : List Nat := tr.filterMap openIdxOf

/-- Attempt indices of the contexts closed in a trace, in order. -/
def closeIdxs (tr : List Event) : List Nat := tr.filterMap closeIdxOf

/-- Ids of the browser processes launched in a trace, in order. -/
def launchIds (tr : List Event) : List Nat := tr.filterMap launchIdOf

/-- Ids of the browser processes terminated in a trace, in order. -/
def killIds (tr : List Event) : List Nat := tr.filterMap killIdOf

/-- Number of owned browser processes after replaying a trace from `n`
owned processes: a launch leaves one owned, a kill leaves none. -/
def ownedAfter : Nat → List Event → Nat
  | n, [] => n
  | _, Event.launch _ :: tr => ownedAfter 1 tr
  | _, Event.kill _ :: tr => ownedAfter 0 tr
  | n, _ :: tr => ownedAfter n tr

/-- Checks single-ownership discipline along a trace starting from `n`
owned browser processes: a process is launched only when none is owned and
terminated only when exactly one is owned, so at most one browser process
is ever owned. -/
def browserDiscipline : Nat → List Event → Bool
  | _, [] => true
  | n, Event.launch _ :: tr => n == 0 && browserDiscipline 1 tr
  | n, Event.kill _ :: tr => n == 1 && browserDiscipline 0 tr
  | n, _ :: tr => browserDiscipline n tr

/-- Number of owned browser processes encoded by a manager state. -/
def ownedOf (st : ManagerState) : Nat :=
  match st.browserHandle with
  | none => 0
  | some _ => 1

/-- Range of `n` consecutive naturals starting at `s`. -/
def attRange (s : Nat) : Nat → List Nat
  | 0 => []
  | n + 1 => s :: attRange (s + 1) n

/-- Timestamp sanity: the recorded last scrape time never lies in the
future of the current clock. -/
def stampOK (st : ManagerState) (now : Nat) : Bool :=
  match st.lastScrapeTimestamp with
  | none => true
  | some t => t ≤ now

/-- Browser-handle sanity: an owned browser id was drawn from the
freshness counter. -/
def handleOK (st : ManagerState) : Bool :=
  match st.browserHandle with
  | none => true
  | some b => b < st.nextBrowserId

/-- List made of the recorded timestamp, when there is one. -/
def stampList : Option Nat → List Nat
  | none => []
  | some t => [t]

/-- First alternative that is present. -/
def optOr : Option Nat → Option Nat → Option Nat
  | some t, _ => some t
  | none, o => o

/-- Last element of the list, or the fallback when the list is empty. -/
def lastStamp : List Nat → Option Nat → Option Nat
  | [], o => o
  | t :: ts, _ => lastStamp ts (some t)

/-- Replaces the URL recorded in a navigate event, leaving every other
event unchanged. -/
def setUrl (u : String) : Event → Event
  | Event.navigate k _ t => Event.navigate k u t
  | e => e

/-- Concrete configuration used to instantiate theorems: the defaults of
the fix notes (3s minimum delay, 2 retries, 20000ms page timeout). -/
def cfgW : Config := ⟨3, 2, 20000⟩

/-- Concrete environment in which every attempt fails. -/
def envFail : Env := ⟨fun _ => Except.error "blocked", fun _ => 0⟩

/-- Concrete environment in which attempt 0 fails and attempt 1 succeeds. -/
def envRetryOk : Env :=
  ⟨fun j => if j = 0 then Except.error "timeout"
            else Except.ok ⟨"Engineer", "Acme", "desc"⟩,
   fun _ => 1⟩

/-- Concrete manager state owning browser 1, last scrape at time 8. -/
def stW : ManagerState := ⟨some 1, some 8, 2⟩

end Scraper

namespace Form

/-- Does the second list occur at the head of the first?  Embeds the
initial-segment test underlying JavaScript `String.prototype.includes`. -/
def leadsWith : List Char → List Char → Bool
  | _, [] => true
  | [], _ :: _ => false
  | c :: s, d :: p => c == d && leadsWith s p

/-- JavaScript `s.includes(pat)` on strings modelled as character lists. -/
def jsIncludes (s pat : List Char) : Bool :=
  match s with
  | [] => leadsWith [] pat
  | _ :: s2 => leadsWith s pat || jsIncludes s2 pat

/-- JavaScript `s.trim()`: remove whitespace from both ends. -/
def jsTrim (s : List Char) : List Char :=
  (((s.dropWhile Char.isWhitespace).reverse.dropWhile Char.isWhitespace)).reverse

/-- Characters of the literal `'linkedin.com'` checked by
`JobPostingForm.handleSubmit`. -/
def linkedinLit : List Char := "linkedin.com".toList

/-- Characters of the literal `'jobs/view'` checked by
`JobPostingForm.handleSubmit`. -/
def jobsViewLit : List Char := "jobs/view".toList

/-- Backend request issued by an API helper, as built in
`frontend/src/services/api.js`. -/
structure ApiRequest where
  method : String
  path : String
  body : List Char
deriving DecidableEq, Repr

/-- Embeds `uploadJob` of `frontend/src/services/api.js`: POST
`/job/upload` with body `{url}`. -/
def uploadJob (u : List Char) : ApiRequest :=
  ⟨"POST", "/job/upload", u⟩

/-- Immediate visible outcome of submitting the job-posting form: an error
toast with no backend request, or a backend request. -/
inductive FormAction where
  | toastError (msg : String)
  | request (r : ApiRequest)
deriving DecidableEq, Repr

/-- Embeds `handleSubmit` of
`frontend/src/components/JobPostingForm.jsx`: reject an empty trimmed URL,
then reject URLs missing `linkedin.com` or `jobs/view`, otherwise upload
the trimmed URL via `uploadJob`. -/
def handleSubmit (url : List Char) : FormAction :=
  if jsTrim url = [] then
    FormAction.toastError "Please enter a valid LinkedIn job URL"
  else if !(jsIncludes url linkedinLit) || !(jsIncludes url jobsViewLit) then
    FormAction.toastError "Please enter a valid LinkedIn job posting URL"
  else
    FormAction.request (uploadJob (jsTrim url))

end Form

namespace Resume

/-- A selected file as the resume-upload component sees it: its MIME type
and its size in bytes. -/
structure FileInfo where
  mime : String
  size : Nat
deriving DecidableEq, Repr

/-- Component state touched by `handleFileSelect`: the stored file, the
`uploadSuccess` flag and the `extractedInfo` payload. -/
structure UploadState where
  file : Option FileInfo
  uploadSuccess : Bool
  extractedInfo : Option String
deriving DecidableEq, Repr

/-- MIME types accepted by the component (`validTypes` in the source). -/
def validTypes : List String :=
  ["application/pdf",
   "application/vnd.openxmlformats-officedocument.wordprocessingml.document"]

/-- Embeds `handleFileSelect` of the resume-upload component: reject a
file of invalid type or of size above 10MB with an error toast and no
state change; otherwise store it and reset `uploadSuccess` and
`extractedInfo`.  Returns the new state and the error toast, if any. -/
def handleFileSelect (st : UploadState) (selected : Option FileInfo) :
    UploadState × Option String :=
  match selected with
  | none => (st, none)
  | some f =>
    if !(validTypes.contains f.mime) then
      (st, some "Please upload a PDF or DOCX file")
    else if f.size > 10 * 1024 * 1024 then
      (st, some "File size must be less than 10MB")
    else
      ({ file := some f, uploadSuccess := false, extractedInfo := none }, none)

/-- Embeds the guard of `handleUpload`: the only file ever sent to
`uploadResume` is the one stored in the component state. -/
def handleUpload (st : UploadState) : Option FileInfo :=
  match st.file with
  | none => none
  | some f => some f

end Resume

namespace Api

/-- An axios error as the response interceptor in
`frontend/src/services/api.js` distinguishes its cases: an error response
from the server (with optional `detail` and `error` fields of its data), a
request that got no response, or anything else with a message. -/
inductive AxiosError where
  | response (status : Nat) (detail : Option String) (errField : Option String)
  | request
  | other (message : String)
deriving DecidableEq, Repr

/-- JavaScript `a || b` on an optional string, where the empty string is
falsy. -/
def jsOrElse (a : Option String) (b : String) : String :=
  match a with
  | none => b
  | some s => if s = "" then b else s

/-- Console line produced by the error branch of the response interceptor
in `frontend/src/services/api.js`. -/
def interceptorLog : AxiosError → String
  | AxiosError.response _ detail errField =>
      "API Error: " ++ jsOrElse detail (jsOrElse errField "An error occurred")
  | AxiosError.request => "Network Error: No response from server"
  | AxiosError.other m => "Error: " ++ m

/-- A raw axios response, whose `data` the helpers return. -/
structure AxiosResponse (α : Type) where
  data : α
deriving Repr

/-- Embeds `api.interceptors.response.use`: successes pass through, errors
are logged and re-rejected unchanged.  Returns the console output and the
forwarded outcome. -/
def responseInterceptor {α : Type} (r : Except AxiosError (AxiosResponse α)) :
    Option String × Except AxiosError (AxiosResponse α) :=
  match r with
  | Except.ok res => (none, Except.ok res)
  | Except.error e => (some (interceptorLog e), Except.error e)

/-- Outcome observed by a caller of an API helper: the helper awaits the
intercepted transport outcome and returns `response.data`. -/
def helperRun {α : Type} (transport : Except AxiosError (AxiosResponse α)) :
    Except AxiosError α :=
  match (responseInterceptor transport).snd with
  | Except.ok res => Except.ok res.data
  | Except.error e => Except.error e

/-- Embeds `uploadResume`: POST `/resume/upload`, return `response.data`. -/
def uploadResume {α : Type} (transport : Except AxiosError (AxiosResponse α)) :
    Except AxiosError α := helperRun transport

/-- Embeds `getResume`: GET `/resume/:id`, return `response.data`. -/
def getResume {α : Type} (transport : Except AxiosError (AxiosResponse α)) :
    Except AxiosError α := helperRun transport

/-- Embeds `startInterview`: GET `/interview/start`, return
`response.data`. -/
def startInterview {α : Type} (transport : Except AxiosError (AxiosResponse α)) :
    Except AxiosError α := helperRun transport

/-- Embeds `submitAnswer`: POST `/interview/answer`, return
`response.data`. -/
def submitAnswer {α : Type} (transport : Except AxiosError (AxiosResponse α)) :
    Except AxiosError α := helperRun transport

/-- Embeds `getFeedback`: GET `/interview/feedback/:id`, return
`response.data`. -/
def getFeedback {α : Type} (transport : Except AxiosError (AxiosResponse α)) :
    Except AxiosError α := helperRun transport

/-- Embeds `uploadJob`: POST `/job/upload`, return `response.data`. -/
def uploadJob {α : Type} (transport : Except AxiosError (AxiosResponse α)) :
    Except AxiosError α := helperRun transport

/-- Embeds `getJob`: GET `/job/:id`, return `response.data`. -/
def getJob {α : Type} (transport : Except AxiosError (AxiosResponse α)) :
    Except AxiosError α := helperRun transport

/-- Embeds `listJobs`: GET `/job/`, return `response.data`. -/
def listJobs {α : Type} (transport : Except AxiosError (AxiosResponse α)) :
    Except AxiosError α := helperRun transport

/-- Embeds `searchJobs`: POST `/job/search`, return `response.data`. -/
def searchJobs {α : Type} (transport : Except AxiosError (AxiosResponse α)) :
    Except AxiosError α := helperRun transport

/-- Embeds `deleteJob`: DELETE `/job/:id`, return `response.data`. -/
def deleteJob {α : Type} (transport : Except AxiosError (AxiosResponse α)) :
    Except AxiosError α := helperRun transport

end Api

end LnkdApb

namespace LnkdApb.Scraper

theorem gate_spacing (cfg : Config) (now t : Nat) (h : t ≤ now) :
    t + cfg.minDelaySeconds ≤ now + gateDelay cfg now (some t) := by
  simp only [gateDelay]
  split <;> omega

theorem filterMap_gateEvents (f : Event → Option Nat)
    (hf : ∀ s, f (Event.gateSleep s) = none) (d : Nat) :
    (gateEvents d).filterMap f = [] := by
  unfold gateEvents
  split <;> simp [hf]

theorem filterMap_ensure (f : Event → Option Nat)
    (hl : ∀ b, f (Event.launch b) = none) (hk : ∀ b, f (Event.kill b) = none)
    (k : Nat) (st : ManagerState) :
    ((ensureBrowser k st).snd).filterMap f = [] := by
  unfold ensureBrowser
  by_cases h0 : k = 0 <;> cases hb : st.browserHandle <;> simp [h0, hb, hl, hk]

theorem navTimes_shape (d k : Nat) (st : ManagerState) (url : String) (t : Nat)
    (tail : List Event) :
    navTimes (gateEvents d ++ ((ensureBrowser k st).snd ++
      (Event.openCtx k :: Event.navigate k url t :: Event.closeCtx k :: tail)))
      = t :: navTimes tail := by
  simp [navTimes, List.filterMap_append,
    filterMap_gateEvents navTimeOf (fun _ => rfl),
    filterMap_ensure navTimeOf (fun _ => rfl) (fun _ => rfl), navTimeOf]

theorem navTimes_backoff_cons (j s : Nat) (rest : List Event) :
    navTimes (Event.backoffSleep j s :: rest) = navTimes rest := by
  simp [navTimes, navTimeOf]

theorem navTimes_nil : navTimes [] = [] := rfl

theorem lastStamp_irrel (l : List Nat) (t : Nat) (o o2 : Option Nat) :
    lastStamp (t :: l) o = lastStamp (t :: l) o2 := by
  simp [lastStamp]

theorem scrapeLoop_err_step (cfg : Config) (env : Env) (url : String)
    (f2 now k : Nat) (st : ManagerState) (e : String)
    (hout : env.outcome k = Except.error e) :
    scrapeLoop cfg env url (f2 + 1 + 1) now k st =
      ⟨(scrapeLoop cfg env url (f2 + 1)
          (now + gateDelay cfg now st.lastScrapeTimestamp + env.dur k + 2 ^ (k + 1))
          (k + 1)
          { (ensureBrowser k st).fst with
              lastScrapeTimestamp := some (now + gateDelay cfg now st.lastScrapeTimestamp) }).result,
       (scrapeLoop cfg env url (f2 + 1)
          (now + gateDelay cfg now st.lastScrapeTimestamp + env.dur k + 2 ^ (k + 1))
          (k + 1)
          { (ensureBrowser k st).fst with
              lastScrapeTimestamp := some (now + gateDelay cfg now st.lastScrapeTimestamp) }).finalTime,
       (scrapeLoop cfg env url (f2 + 1)
          (now + gateDelay cfg now st.lastScrapeTimestamp + env.dur k + 2 ^ (k + 1))
          (k + 1)
          { (ensureBrowser k st).fst with
              lastScrapeTimestamp := some (now + gateDelay cfg now st.lastScrapeTimestamp) }).finalState,
       gateEvents (gateDelay cfg now st.lastScrapeTimestamp) ++
         ((ensureBrowser k st).snd ++
           (Event.openCtx k ::
            Event.navigate k url (now + gateDelay cfg now st.lastScrapeTimestamp) ::
            Event.closeCtx k :: Event.backoffSleep (k + 1) (2 ^ (k + 1)) ::
            (scrapeLoop cfg env url (f2 + 1)
              (now + gateDelay cfg now st.lastScrapeTimestamp + env.dur k + 2 ^ (k + 1))
              (k + 1)
              { (ensureBrowser k st).fst with
                  lastScrapeTimestamp :=
                    some (now + gateDelay cfg now st.lastScrapeTimestamp) }).trace))⟩ := by
  conv_lhs => rw [scrapeLoop]
  simp [hout]

theorem loop_times (cfg : Config) (env : Env) (url : String) :
    ∀ (fuel now k : Nat) (st : ManagerState), stampOK st now = true →
      List.Chain' (fun a b => a + cfg.minDelaySeconds ≤ b)
          (stampList st.lastScrapeTimestamp
            ++ navTimes (scrapeLoop cfg env url fuel now k st).trace)
        ∧ stampOK (scrapeLoop cfg env url fuel now k st).finalState
            (scrapeLoop cfg env url fuel now k st).finalTime = true
        ∧ (scrapeLoop cfg env url fuel now k st).finalState.lastScrapeTimestamp
            = lastStamp (navTimes (scrapeLoop cfg env url fuel now k st).trace)
                st.lastScrapeTimestamp
        ∧ now ≤ (scrapeLoop cfg env url fuel now k st).finalTime := by
  intro fuel
  induction fuel with
  | zero =>
    intro now k st h
    refine ⟨?_, h, rfl, Nat.le_refl _⟩
    cases hs : st.lastScrapeTimestamp <;>
      simp [scrapeLoop, navTimes, stampList]
  | succ f ih =>
    intro now k st h
    cases hout : env.outcome k with
    | ok r =>
      have hchain : List.Chain' (fun a b => a + cfg.minDelaySeconds ≤ b)
          (stampList st.lastScrapeTimestamp
            ++ [now + gateDelay cfg now st.lastScrapeTimestamp]) := by
        cases hs : st.lastScrapeTimestamp with
        | none => simp [stampList]
        | some t =>
          have ht : t ≤ now := by simpa [stampOK, hs] using h
          simp [stampList, List.chain'_cons, gate_spacing cfg now t ht]
      simp only [scrapeLoop, hout]
      exact ⟨by simpa [navTimes_shape, navTimes_nil] using hchain,
        by simp [stampOK],
        by simp [navTimes_shape, navTimes_nil, lastStamp],
        by omega⟩
    | error e =>
      cases f with
      | zero =>
        have hchain : List.Chain' (fun a b => a + cfg.minDelaySeconds ≤ b)
            (stampList st.lastScrapeTimestamp
              ++ [now + gateDelay cfg now st.lastScrapeTimestamp]) := by
          cases hs : st.lastScrapeTimestamp with
          | none => simp [stampList]
          | some t =>
            have ht : t ≤ now := by simpa [stampOK, hs] using h
            simp [stampList, List.chain'_cons, gate_spacing cfg now t ht]
        simp only [scrapeLoop, hout]
        exact ⟨by simpa [navTimes_shape, navTimes_nil] using hchain,
          by simp [stampOK],
          by simp [navTimes_shape, navTimes_nil, lastStamp],
          by omega⟩
      | succ f2 =>
        rw [scrapeLoop_err_step cfg env url f2 now k st e hout]
        dsimp only
        set d := gateDelay cfg now st.lastScrapeTimestamp with hd
        set now1 := now + d with hn1
        set st2 : ManagerState :=
          { (ensureBrowser k st).fst with lastScrapeTimestamp := some now1 } with hst2
        have hok2 : stampOK st2 (now1 + env.dur k + 2 ^ (k + 1)) = true := by
          rw [hst2]
          simp [stampOK]
          exact Nat.le_trans (Nat.le_add_right _ _) (Nat.le_add_right _ _)
        have hrec := ih (now1 + env.dur k + 2 ^ (k + 1)) (k + 1) st2 hok2
        rcases hrec with ⟨hc, hok, hlast, hle⟩
        have hnowle : now ≤
            (scrapeLoop cfg env url (f2 + 1) (now1 + env.dur k + 2 ^ (k + 1))
              (k + 1) st2).finalTime := by
          have h1 : now ≤ now1 := by rw [hn1]; exact Nat.le_add_right _ _
          have h2 : now1 ≤ now1 + env.dur k + 2 ^ (k + 1) :=
            Nat.le_trans (Nat.le_add_right _ _) (Nat.le_add_right _ _)
          exact Nat.le_trans (Nat.le_trans h1 h2) hle
        refine ⟨?_, hok, ?_, hnowle⟩
        · rw [navTimes_shape, navTimes_backoff_cons]
          have hc2 : List.Chain' (fun a b => a + cfg.minDelaySeconds ≤ b)
              (now1 :: navTimes
                (scrapeLoop cfg env url (f2 + 1) (now1 + env.dur k + 2 ^ (k + 1))
                  (k + 1) st2).trace) := by
            simpa [hst2, stampList] using hc
          cases hs : st.lastScrapeTimestamp with
          | none => simpa [stampList] using hc2
          | some t =>
            have ht : t ≤ now := by simpa [stampOK, hs] using h
            have hgap : t + cfg.minDelaySeconds ≤ now1 := by
              rw [hn1, hd, hs]; exact gate_spacing cfg now t ht
            simpa [stampList, List.chain'_cons, hgap] using hc2
        · rw [navTimes_shape, navTimes_backoff_cons]
          have heq : lastStamp
              (navTimes (scrapeLoop cfg env url (f2 + 1)
                  (now1 + env.dur k + 2 ^ (k + 1)) (k + 1) st2).trace)
              (some now1)
              = lastStamp
                (navTimes (scrapeLoop cfg env url (f2 + 1)
                    (now1 + env.dur k + 2 ^ (k + 1)) (k + 1) st2).trace)
                st2.lastScrapeTimestamp := by
            simp [hst2]
          simp [lastStamp, hlast, heq]

theorem scrapeLoop_ok_eq (cfg : Config) (env : Env) (url : String)
    (f now k : Nat) (st : ManagerState) (r : ScrapeResult)
    (hout : env.outcome k = Except.ok r) :
    scrapeLoop cfg env url (f + 1) now k st =
      ⟨Except.ok r,
       now + gateDelay cfg now st.lastScrapeTimestamp + env.dur k,
       { (ensureBrowser k st).fst with
           lastScrapeTimestamp := some (now + gateDelay cfg now st.lastScrapeTimestamp) },
       gateEvents (gateDelay cfg now st.lastScrapeTimestamp) ++
         ((ensureBrowser k st).snd ++
           (Event.openCtx k ::
            Event.navigate k url (now + gateDelay cfg now st.lastScrapeTimestamp) ::
            Event.closeCtx k :: []))⟩ := by
  conv_lhs => rw [scrapeLoop]
  simp [hout]

theorem scrapeLoop_err_last (cfg : Config) (env : Env) (url : String)
    (now k : Nat) (st : ManagerState) (e : String)
    (hout : env.outcome k = Except.error e) :
    scrapeLoop cfg env url 1 now k st =
      ⟨Except.error e,
       now + gateDelay cfg now st.lastScrapeTimestamp + env.dur k,
       { (ensureBrowser k st).fst with
           lastScrapeTimestamp := some (now + gateDelay cfg now st.lastScrapeTimestamp) },
       gateEvents (gateDelay cfg now st.lastScrapeTimestamp) ++
         ((ensureBrowser k st).snd ++
           (Event.openCtx k ::
            Event.navigate k url (now + gateDelay cfg now st.lastScrapeTimestamp) ::
            Event.closeCtx k :: []))⟩ := by
  conv_lhs => rw [scrapeLoop]
  simp [hout]

/-- C1: for every sequence of two or more scrape attempts performed by
`scrapeJob` (counting retries as attempts), the wall-clock gap between the
start times of consecutive attempts is at least `minDelaySeconds`; this
also chains from the previous call's `lastScrapeTimestamp`, which the call
leaves equal to its own last attempt's start time, so the spacing holds
across consecutive calls as well. -/
theorem scrapeJob_min_delay_between_attempts (cfg : Config) (env : Env)
    (url : String) (now : Nat) (st : ManagerState)
    (h : stampOK st now = true) :
    List.Chain' (fun a b => a + cfg.minDelaySeconds ≤ b)
        (stampList st.lastScrapeTimestamp
          ++ navTimes (scrapeJob cfg env url now st).trace)
      ∧ (scrapeJob cfg env url now st).finalState.lastScrapeTimestamp
          = lastStamp (navTimes (scrapeJob cfg env url now st).trace)
              st.lastScrapeTimestamp
      ∧ stampOK (scrapeJob cfg env url now st).finalState
          (scrapeJob cfg env url now st).finalTime = true := by
  have h2 := loop_times cfg env url (cfg.maxRetries + 1) now 0 st h
  exact ⟨h2.1, h2.2.2.1, h2.2.1⟩

theorem scrapeJob_min_delay_between_attempts_witness :
    stampOK stW 10 = true
    ∧ (List.Chain' (fun a b => a + cfgW.minDelaySeconds ≤ b)
          (stampList stW.lastScrapeTimestamp
            ++ navTimes (scrapeJob cfgW envFail "u" 10 stW).trace)
        ∧ (scrapeJob cfgW envFail "u" 10 stW).finalState.lastScrapeTimestamp
            = lastStamp (navTimes (scrapeJob cfgW envFail "u" 10 stW).trace)
                stW.lastScrapeTimestamp
        ∧ stampOK (scrapeJob cfgW envFail "u" 10 stW).finalState
            (scrapeJob cfgW envFail "u" 10 stW).finalTime = true) :=
  ⟨by decide,
   scrapeJob_min_delay_between_attempts cfgW envFail "u" 10 stW (by decide)⟩

theorem navIdxs_shape (d k : Nat) (st : ManagerState) (url : String) (t : Nat)
    (tail : List Event) :
    navIdxs (gateEvents d ++ ((ensureBrowser k st).snd ++
      (Event.openCtx k :: Event.navigate k url t :: Event.closeCtx k :: tail)))
      = k :: navIdxs tail := by
  simp [navIdxs, List.filterMap_append,
    filterMap_gateEvents navIdxOf (fun _ => rfl),
    filterMap_ensure navIdxOf (fun _ => rfl) (fun _ => rfl), navIdxOf]

theorem navIdxs_backoff_cons (j s : Nat) (rest : List Event) :
    navIdxs (Event.backoffSleep j s :: rest) = navIdxs rest := by
  simp [navIdxs, navIdxOf]

theorem navIdxs_nil : navIdxs [] = [] := rfl

theorem loop_all_fail (cfg : Config) (env : Env) (url : String) :
    ∀ (fuel now k : Nat) (st : ManagerState),
      (∀ j, j < fuel + 1 → ∃ e2, env.outcome (k + j) = Except.error e2) →
      (scrapeLoop cfg env url (fuel + 1) now k st).result = env.outcome (k + fuel)
        ∧ navIdxs (scrapeLoop cfg env url (fuel + 1) now k st).trace
            = attRange k (fuel + 1) := by
  intro fuel
  induction fuel with
  | zero =>
    intro now k st hall
    obtain ⟨e, he⟩ := hall 0 (by omega)
    rw [Nat.add_zero] at he
    rw [scrapeLoop_err_last cfg env url now k st e he]
    refine ⟨by simp [he], ?_⟩
    simp [navIdxs_shape, navIdxs_nil, attRange]
  | succ f ih =>
    intro now k st hall
    obtain ⟨e, he⟩ := hall 0 (by omega)
    rw [Nat.add_zero] at he
    rw [scrapeLoop_err_step cfg env url f now k st e he]
    dsimp only
    have hall2 : ∀ j, j < f + 1 → ∃ e2, env.outcome (k + 1 + j) = Except.error e2 := by
      intro j hj
      obtain ⟨e2, he2⟩ := hall (j + 1) (by omega)
      exact ⟨e2, by rw [← he2]; ring_nf⟩
    have hrec := ih
      (now + gateDelay cfg now st.lastScrapeTimestamp + env.dur k + 2 ^ (k + 1))
      (k + 1)
      { (ensureBrowser k st).fst with
          lastScrapeTimestamp := some (now + gateDelay cfg now st.lastScrapeTimestamp) }
      hall2
    refine ⟨?_, ?_⟩
    · rw [hrec.1]
      congr 1
      omega
    · rw [navIdxs_shape, navIdxs_backoff_cons, hrec.2]
      simp [attRange]

theorem loop_first_success (cfg : Config) (env : Env) (url : String) :
    ∀ (ksucc fuel now k : Nat) (st : ManagerState) (r : ScrapeResult),
      ksucc < fuel →
      env.outcome (k + ksucc) = Except.ok r →
      (∀ j, j < ksucc → ∃ e2, env.outcome (k + j) = Except.error e2) →
      (scrapeLoop cfg env url fuel now k st).result = Except.ok r
        ∧ navIdxs (scrapeLoop cfg env url fuel now k st).trace
            = attRange k (ksucc + 1) := by
  intro ksucc
  induction ksucc with
  | zero =>
    intro fuel now k st r hlt hok _
    rw [Nat.add_zero] at hok
    obtain ⟨f, rfl⟩ : ∃ f, fuel = f + 1 := ⟨fuel - 1, by omega⟩
    rw [scrapeLoop_ok_eq cfg env url f now k st r hok]
    exact ⟨rfl, by simp [navIdxs_shape, navIdxs_nil, attRange]⟩
  | succ kp ih =>
    intro fuel now k st r hlt hok hfails
    obtain ⟨e, he⟩ := hfails 0 (by omega)
    rw [Nat.add_zero] at he
    obtain ⟨f2, rfl⟩ : ∃ f2, fuel = f2 + 1 + 1 := ⟨fuel - 2, by omega⟩
    rw [scrapeLoop_err_step cfg env url f2 now k st e he]
    dsimp only
    have hok2 : env.outcome (k + 1 + kp) = Except.ok r := by
      rw [← hok]; ring_nf
    have hfails2 : ∀ j, j < kp → ∃ e2, env.outcome (k + 1 + j) = Except.error e2 := by
      intro j hj
      obtain ⟨e2, he2⟩ := hfails (j + 1) (by omega)
      exact ⟨e2, by rw [← he2]; ring_nf⟩
    have hrec := ih (f2 + 1)
      (now + gateDelay cfg now st.lastScrapeTimestamp + env.dur k + 2 ^ (k + 1))
      (k + 1)
      { (ensureBrowser k st).fst with
          lastScrapeTimestamp := some (now + gateDelay cfg now st.lastScrapeTimestamp) }
      r (by omega) hok2 hfails2
    refine ⟨hrec.1, ?_⟩
    rw [navIdxs_shape, navIdxs_backoff_cons, hrec.2]
    simp [attRange]

theorem attRange_length : ∀ (n s : Nat), (attRange s n).length = n := by
  intro n
  induction n with
  | zero => intro s; rfl
  | succ m ih => intro s; simp [attRange, ih]

/-- C2: when every attempt fails, `scrapeJob` performs exactly
`maxRetries + 1` attempts and surfaces exactly the last attempt's error as
the single outcome the caller observes; no partial result is returned. -/
theorem scrapeJob_exhaustion (cfg : Config) (env : Env) (url : String)
    (now : Nat) (st : ManagerState)
    (hall : ∀ j, j ≤ cfg.maxRetries → ∃ e, env.outcome j = Except.error e) :
    (navIdxs (scrapeJob cfg env url now st).trace).length = cfg.maxRetries + 1
    ∧ (scrapeJob cfg env url now st).result = env.outcome cfg.maxRetries
    ∧ ∀ e, env.outcome cfg.maxRetries = Except.error e →
        (scrapeJob cfg env url now st).result = Except.error e := by
  have h := loop_all_fail cfg env url cfg.maxRetries now 0 st
    (fun j hj => by simpa using hall j (by omega))
  have hres : (scrapeJob cfg env url now st).result = env.outcome cfg.maxRetries := by
    have := h.1
    simpa [scrapeJob] using this
  refine ⟨?_, hres, fun e he => by rw [hres, he]⟩
  have := h.2
  simp only [scrapeJob] at *
  rw [this, attRange_length]

theorem scrapeJob_exhaustion_witness :
    (∀ j, j ≤ cfgW.maxRetries → ∃ e, envFail.outcome j = Except.error e)
    ∧ ((navIdxs (scrapeJob cfgW envFail "u" 10 stW).trace).length = cfgW.maxRetries + 1
       ∧ (scrapeJob cfgW envFail "u" 10 stW).result = envFail.outcome cfgW.maxRetries
       ∧ ∀ e, envFail.outcome cfgW.maxRetries = Except.error e →
           (scrapeJob cfgW envFail "u" 10 stW).result = Except.error e) :=
  ⟨fun _ _ => ⟨"blocked", rfl⟩,
   scrapeJob_exhaustion cfgW envFail "u" 10 stW (fun _ _ => ⟨"blocked", rfl⟩)⟩

/-- C6: when attempt `k` is the first to succeed, `scrapeJob` returns
immediately after attempt `k` — the attempts performed are exactly
`0..k` — and the returned result is, field for field, exactly the data
extracted by attempt `k`; nothing from an earlier, failed attempt is
returned. -/
theorem scrapeJob_success_immediate (cfg : Config) (env : Env) (url : String)
    (now : Nat) (st : ManagerState) (k : Nat) (r : ScrapeResult)
    (hk : k ≤ cfg.maxRetries)
    (hok : env.outcome k = Except.ok r)
    (hfails : ∀ j, j < k → ∃ e, env.outcome j = Except.error e) :
    (scrapeJob cfg env url now st).result = Except.ok r
    ∧ navIdxs (scrapeJob cfg env url now st).trace = attRange 0 (k + 1)
    ∧ (navIdxs (scrapeJob cfg env url now st).trace).length = k + 1 := by
  have h := loop_first_success cfg env url k (cfg.maxRetries + 1) now 0 st r
    (by omega) (by simpa using hok) (fun j hj => by simpa using hfails j hj)
  exact ⟨h.1, h.2, by simp only [scrapeJob]; rw [h.2, attRange_length]⟩

theorem scrapeJob_success_immediate_witness :
    (1 ≤ cfgW.maxRetries
     ∧ envRetryOk.outcome 1 = Except.ok ⟨"Engineer", "Acme", "desc"⟩
     ∧ ∀ j, j < 1 → ∃ e, envRetryOk.outcome j = Except.error e)
    ∧ ((scrapeJob cfgW envRetryOk "u" 10 stW).result
          = Except.ok ⟨"Engineer", "Acme", "desc"⟩
       ∧ navIdxs (scrapeJob cfgW envRetryOk "u" 10 stW).trace = attRange 0 (1 + 1)
       ∧ (navIdxs (scrapeJob cfgW envRetryOk "u" 10 stW).trace).length = 1 + 1) :=
  ⟨⟨by decide, rfl, fun j hj => ⟨"timeout", by interval_cases j <;> rfl⟩⟩,
   scrapeJob_success_immediate cfgW envRetryOk "u" 10 stW 1
     ⟨"Engineer", "Acme", "desc"⟩ (by decide) rfl
     (fun j hj => ⟨"timeout", by interval_cases j <;> rfl⟩)⟩

theorem openIdxs_shape (d k : Nat) (st : ManagerState) (url : String) (t : Nat)
    (tail : List Event) :
    openIdxs (gateEvents d ++ ((ensureBrowser k st).snd ++
      (Event.openCtx k :: Event.navigate k url t :: Event.closeCtx k :: tail)))
      = k :: openIdxs tail := by
  simp [openIdxs, List.filterMap_append,
    filterMap_gateEvents openIdxOf (fun _ => rfl),
    filterMap_ensure openIdxOf (fun _ => rfl) (fun _ => rfl), openIdxOf]

theorem closeIdxs_shape (d k : Nat) (st : ManagerState) (url : String) (t : Nat)
    (tail : List Event) :
    closeIdxs (gateEvents d ++ ((ensureBrowser k st).snd ++
      (Event.openCtx k :: Event.navigate k url t :: Event.closeCtx k :: tail)))
      = k :: closeIdxs tail := by
  simp [closeIdxs, List.filterMap_append,
    filterMap_gateEvents closeIdxOf (fun _ => rfl),
    filterMap_ensure closeIdxOf (fun _ => rfl) (fun _ => rfl), closeIdxOf]

theorem openIdxs_backoff_cons (j s : Nat) (rest : List Event) :
    openIdxs (Event.backoffSleep j s :: rest) = openIdxs rest := by
  simp [openIdxs, openIdxOf]

theorem closeIdxs_backoff_cons (j s : Nat) (rest : List Event) :
    closeIdxs (Event.backoffSleep j s :: rest) = closeIdxs rest := by
  simp [closeIdxs, closeIdxOf]

theorem loop_ctx_balanced (cfg : Config) (env : Env) (url : String) :
    ∀ (fuel now k : Nat) (st : ManagerState),
      openIdxs (scrapeLoop cfg env url fuel now k st).trace
          = navIdxs (scrapeLoop cfg env url fuel now k st).trace
        ∧ closeIdxs (scrapeLoop cfg env url fuel now k st).trace
            = navIdxs (scrapeLoop cfg env url fuel now k st).trace := by
  intro fuel
  induction fuel with
  | zero => intro now k st; exact ⟨rfl, rfl⟩
  | succ f ih =>
    intro now k st
    cases hout : env.outcome k with
    | ok r =>
      rw [scrapeLoop_ok_eq cfg env url f now k st r hout]
      dsimp only
      rw [openIdxs_shape, closeIdxs_shape, navIdxs_shape]
      exact ⟨rfl, rfl⟩
    | error e =>
      cases f with
      | zero =>
        rw [scrapeLoop_err_last cfg env url now k st e hout]
        dsimp only
        rw [openIdxs_shape, closeIdxs_shape, navIdxs_shape]
        exact ⟨rfl, rfl⟩
      | succ f2 =>
        rw [scrapeLoop_err_step cfg env url f2 now k st e hout]
        dsimp only
        rw [openIdxs_shape, closeIdxs_shape, navIdxs_shape,
          openIdxs_backoff_cons, closeIdxs_backoff_cons, navIdxs_backoff_cons]
        have hrec := ih
          (now + gateDelay cfg now st.lastScrapeTimestamp + env.dur k + 2 ^ (k + 1))
          (k + 1)
          { (ensureBrowser k st).fst with
              lastScrapeTimestamp := some (now + gateDelay cfg now st.lastScrapeTimestamp) }
        rw [hrec.1, hrec.2]
        exact ⟨rfl, rfl⟩

theorem loop_navIdxs_range (cfg : Config) (env : Env) (url : String) :
    ∀ (fuel now k : Nat) (st : ManagerState),
      navIdxs (scrapeLoop cfg env url fuel now k st).trace
        = attRange k (navIdxs (scrapeLoop cfg env url fuel now k st).trace).length := by
  intro fuel
  induction fuel with
  | zero => intro now k st; rfl
  | succ f ih =>
    intro now k st
    cases hout : env.outcome k with
    | ok r =>
      rw [scrapeLoop_ok_eq cfg env url f now k st r hout]
      dsimp only
      rw [navIdxs_shape]
      simp [navIdxs_nil, attRange]
    | error e =>
      cases f with
      | zero =>
        rw [scrapeLoop_err_last cfg env url now k st e hout]
        dsimp only
        rw [navIdxs_shape]
        simp [navIdxs_nil, attRange]
      | succ f2 =>
        rw [scrapeLoop_err_step cfg env url f2 now k st e hout]
        dsimp only
        rw [navIdxs_shape, navIdxs_backoff_cons]
        have hrec := ih
          (now + gateDelay cfg now st.lastScrapeTimestamp + env.dur k + 2 ^ (k + 1))
          (k + 1)
          { (ensureBrowser k st).fst with
              lastScrapeTimestamp := some (now + gateDelay cfg now st.lastScrapeTimestamp) }
        rw [List.length_cons]
        simp only [attRange]
        exact congrArg (List.cons k) hrec

theorem attRange_nodup : ∀ (n s : Nat), (attRange s n).Nodup := by
  intro n
  induction n with
  | zero => intro s; exact List.nodup_nil
  | succ m ih =>
    intro s
    refine List.nodup_cons.mpr ⟨?_, ih (s + 1)⟩
    intro hmem
    have : ∀ (m2 s2 : Nat), s < s2 → s ∈ attRange s2 m2 → False := by
      intro m2
      induction m2 with
      | zero => intro s2 hlt h; simp [attRange] at h
      | succ m3 ih3 =>
        intro s2 hlt h
        rcases List.mem_cons.mp h with h1 | h1
        · omega
        · exact ih3 (s2 + 1) (by omega) h1
    exact this m (s + 1) (by omega) hmem

theorem loop_attempt_block (cfg : Config) (env : Env) (url : String) :
    ∀ (fuel now k : Nat) (st : ManagerState) (j : Nat),
      j ∈ navIdxs (scrapeLoop cfg env url fuel now k st).trace →
      ∃ pre t2 post, (scrapeLoop cfg env url fuel now k st).trace
        = pre ++ Event.openCtx j :: Event.navigate j url t2 :: Event.closeCtx j :: post := by
  intro fuel
  induction fuel with
  | zero => intro now k st j hm; simp [scrapeLoop, navIdxs_nil] at hm
  | succ f ih =>
    intro now k st j hm
    cases hout : env.outcome k with
    | ok r =>
      rw [scrapeLoop_ok_eq cfg env url f now k st r hout] at hm ⊢
      dsimp only at hm ⊢
      rw [navIdxs_shape] at hm
      rcases List.mem_cons.mp hm with h1 | h1
      · subst h1
        exact ⟨gateEvents (gateDelay cfg now st.lastScrapeTimestamp)
            ++ (ensureBrowser j st).snd,
          now + gateDelay cfg now st.lastScrapeTimestamp, [],
          by simp [List.append_assoc]⟩
      · simp [navIdxs_nil] at h1
    | error e =>
      cases f with
      | zero =>
        rw [scrapeLoop_err_last cfg env url now k st e hout] at hm ⊢
        dsimp only at hm ⊢
        rw [navIdxs_shape] at hm
        rcases List.mem_cons.mp hm with h1 | h1
        · subst h1
          exact ⟨gateEvents (gateDelay cfg now st.lastScrapeTimestamp)
              ++ (ensureBrowser j st).snd,
            now + gateDelay cfg now st.lastScrapeTimestamp, [],
            by simp [List.append_assoc]⟩
        · simp [navIdxs_nil] at h1
      | succ f2 =>
        rw [scrapeLoop_err_step cfg env url f2 now k st e hout] at hm ⊢
        dsimp only at hm ⊢
        rw [navIdxs_shape, navIdxs_backoff_cons] at hm
        rcases List.mem_cons.mp hm with h1 | h1
        · subst h1
          refine ⟨gateEvents (gateDelay cfg now st.lastScrapeTimestamp)
              ++ (ensureBrowser j st).snd,
            now + gateDelay cfg now st.lastScrapeTimestamp,
            Event.backoffSleep (j + 1) (2 ^ (j + 1)) ::
              (scrapeLoop cfg env url (f2 + 1)
                (now + gateDelay cfg now st.lastScrapeTimestamp + env.dur j + 2 ^ (j + 1))
                (j + 1)
                { (ensureBrowser j st).fst with
                    lastScrapeTimestamp :=
                      some (now + gateDelay cfg now st.lastScrapeTimestamp) }).trace,
            by simp [List.append_assoc]⟩
        · obtain ⟨pre, t2, post, hsplit⟩ := ih
            (now + gateDelay cfg now st.lastScrapeTimestamp + env.dur k + 2 ^ (k + 1))
            (k + 1)
            { (ensureBrowser k st).fst with
                lastScrapeTimestamp :=
                  some (now + gateDelay cfg now st.lastScrapeTimestamp) }
            j h1
          refine ⟨gateEvents (gateDelay cfg now st.lastScrapeTimestamp)
              ++ ((ensureBrowser k st).snd ++
                (Event.openCtx k ::
                 Event.navigate k url (now + gateDelay cfg now st.lastScrapeTimestamp) ::
                 Event.closeCtx k :: Event.backoffSleep (k + 1) (2 ^ (k + 1)) :: pre)),
            t2, post, ?_⟩
          rw [hsplit]
          simp [List.append_assoc]

theorem bd_append (xs : List Event) : ∀ (n : Nat) (ys : List Event),
    browserDiscipline n (xs ++ ys)
      = (browserDiscipline n xs && browserDiscipline (ownedAfter n xs) ys) := by
  induction xs with
  | nil => intro n ys; simp [browserDiscipline, ownedAfter]
  | cons e tr ih =>
    intro n ys
    cases e <;> simp [browserDiscipline, ownedAfter, ih, Bool.and_assoc]

theorem ensure_fst_isSome (k : Nat) (st : ManagerState) :
    ((ensureBrowser k st).fst).browserHandle.isSome = true := by
  unfold ensureBrowser
  by_cases h0 : k = 0 <;> cases hb : st.browserHandle <;> simp [h0, hb]

theorem bd_after_ensure (d k : Nat) (st : ManagerState) (url : String) (t : Nat)
    (tail : List Event) (hsome : k ≠ 0 → st.browserHandle.isSome = true) :
    browserDiscipline (ownedOf st) (gateEvents d ++ ((ensureBrowser k st).snd ++
      (Event.openCtx k :: Event.navigate k url t :: Event.closeCtx k :: tail)))
      = browserDiscipline 1 tail := by
  unfold gateEvents ensureBrowser ownedOf
  by_cases h0 : k = 0
  · cases hb : st.browserHandle <;> by_cases hd : d = 0 <;>
      simp [h0, hb, hd, browserDiscipline]
  · have hs := hsome h0
    cases hb : st.browserHandle with
    | none => rw [hb] at hs; simp at hs
    | some b =>
      by_cases hd : d = 0 <;> simp [h0, hb, hd, browserDiscipline]

theorem loop_bd (cfg : Config) (env : Env) (url : String) :
    ∀ (fuel now k : Nat) (st : ManagerState),
      (k ≠ 0 → st.browserHandle.isSome = true) →
      browserDiscipline (ownedOf st) (scrapeLoop cfg env url fuel now k st).trace = true := by
  intro fuel
  induction fuel with
  | zero => intro now k st _; rfl
  | succ f ih =>
    intro now k st hsome
    have howned : ownedOf
        { (ensureBrowser k st).fst with
            lastScrapeTimestamp := some (now + gateDelay cfg now st.lastScrapeTimestamp) }
        = 1 := by
      obtain ⟨b, hb⟩ := Option.isSome_iff_exists.mp (ensure_fst_isSome k st)
      simp [ownedOf, hb]
    cases hout : env.outcome k with
    | ok r =>
      rw [scrapeLoop_ok_eq cfg env url f now k st r hout]
      dsimp only
      rw [bd_after_ensure _ _ _ _ _ _ hsome]
      rfl
    | error e =>
      cases f with
      | zero =>
        rw [scrapeLoop_err_last cfg env url now k st e hout]
        dsimp only
        rw [bd_after_ensure _ _ _ _ _ _ hsome]
        rfl
      | succ f2 =>
        rw [scrapeLoop_err_step cfg env url f2 now k st e hout]
        dsimp only
        rw [bd_after_ensure _ _ _ _ _ _ hsome]
        have hrec := ih
          (now + gateDelay cfg now st.lastScrapeTimestamp + env.dur k + 2 ^ (k + 1))
          (k + 1)
          { (ensureBrowser k st).fst with
              lastScrapeTimestamp := some (now + gateDelay cfg now st.lastScrapeTimestamp) }
          (fun _ => ensure_fst_isSome k st)
        rw [howned] at hrec
        simpa [browserDiscipline] using hrec

/-- C5: along every `scrapeJob` trace at most one browser process is
owned at any point (a launch happens only with none owned, a kill only
with one owned), and browsing contexts are per-attempt: the opened and
closed context lists coincide with the attempt list, attempts are
pairwise distinct (so exactly one open and one close per attempt, on
success and failure paths alike), and each attempt's open, navigate and
close are contiguous, so no context outlives its attempt. -/
theorem scrapeJob_browser_and_ctx_invariant (cfg : Config) (env : Env)
    (url : String) (now : Nat) (st : ManagerState) :
    browserDiscipline (ownedOf st) (scrapeJob cfg env url now st).trace = true
    ∧ openIdxs (scrapeJob cfg env url now st).trace
        = navIdxs (scrapeJob cfg env url now st).trace
    ∧ closeIdxs (scrapeJob cfg env url now st).trace
        = navIdxs (scrapeJob cfg env url now st).trace
    ∧ (navIdxs (scrapeJob cfg env url now st).trace).Nodup
    ∧ ∀ j, j ∈ navIdxs (scrapeJob cfg env url now st).trace →
        ∃ pre t2 post, (scrapeJob cfg env url now st).trace
          = pre ++ Event.openCtx j :: Event.navigate j url t2 :: Event.closeCtx j :: post := by
  refine ⟨loop_bd cfg env url (cfg.maxRetries + 1) now 0 st (fun h => absurd rfl h),
    (loop_ctx_balanced cfg env url (cfg.maxRetries + 1) now 0 st).1,
    (loop_ctx_balanced cfg env url (cfg.maxRetries + 1) now 0 st).2, ?_,
    fun j hm => loop_attempt_block cfg env url (cfg.maxRetries + 1) now 0 st j hm⟩
  simp only [scrapeJob]
  rw [loop_navIdxs_range cfg env url (cfg.maxRetries + 1) now 0 st]
  exact attRange_nodup _ _

theorem scrapeJob_browser_and_ctx_invariant_witness :
    (1 ∈ navIdxs (scrapeJob cfgW envFail "u" 10 stW).trace)
    ∧ (∃ pre t2 post, (scrapeJob cfgW envFail "u" 10 stW).trace
        = pre ++ Event.openCtx 1 :: Event.navigate 1 "u" t2 :: Event.closeCtx 1 :: post) :=
  ⟨by decide,
   (scrapeJob_browser_and_ctx_invariant cfgW envFail "u" 10 stW).2.2.2.2 1 (by decide)⟩

theorem backoff_not_mem_gate (j s d : Nat) :
    Event.backoffSleep j s ∉ gateEvents d := by
  unfold gateEvents
  split <;> simp

theorem backoff_not_mem_ensure (j s k : Nat) (st : ManagerState) :
    Event.backoffSleep j s ∉ (ensureBrowser k st).snd := by
  unfold ensureBrowser
  by_cases h0 : k = 0 <;> cases hb : st.browserHandle <;> simp [h0, hb]

theorem loop_backoff_mem (cfg : Config) (env : Env) (url : String) :
    ∀ (fuel now k : Nat) (st : ManagerState) (j s : Nat),
      Event.backoffSleep j s ∈ (scrapeLoop cfg env url fuel now k st).trace →
      k + 1 ≤ j ∧ s = 2 ^ j := by
  intro fuel
  induction fuel with
  | zero => intro now k st j s hm; simp [scrapeLoop] at hm
  | succ f ih =>
    intro now k st j s hm
    cases hout : env.outcome k with
    | ok r =>
      rw [scrapeLoop_ok_eq cfg env url f now k st r hout] at hm
      dsimp only at hm
      simp [List.mem_append, backoff_not_mem_gate, backoff_not_mem_ensure] at hm
    | error e =>
      cases f with
      | zero =>
        rw [scrapeLoop_err_last cfg env url now k st e hout] at hm
        dsimp only at hm
        simp [List.mem_append, backoff_not_mem_gate, backoff_not_mem_ensure] at hm
      | succ f2 =>
        rw [scrapeLoop_err_step cfg env url f2 now k st e hout] at hm
        dsimp only at hm
        simp only [List.mem_append, List.mem_cons] at hm
        rcases hm with h1 | h1
        · exact absurd h1 (backoff_not_mem_gate j s _)
        rcases h1 with h1 | h1
        · exact absurd h1 (backoff_not_mem_ensure j s k st)
        rcases h1 with h1 | h1
        · exact absurd h1 (by simp)
        rcases h1 with h1 | h1
        · exact absurd h1 (by simp)
        rcases h1 with h1 | h1
        · exact absurd h1 (by simp)
        rcases h1 with h1 | h1
        · have hj : j = k + 1 ∧ s = 2 ^ (k + 1) := by
            simpa using h1
          obtain ⟨hj1, hj2⟩ := hj
          subst hj1
          exact ⟨Nat.le_refl _, hj2⟩
        · have := ih _ _ _ _ _ h1
          exact ⟨by omega, this.2⟩

theorem loop_nav_backoff (cfg : Config) (env : Env) (url : String) :
    ∀ (fuel now k : Nat) (st : ManagerState) (j : Nat),
      j ∈ navIdxs (scrapeLoop cfg env url fuel now k st).trace →
      j ≠ k →
      ∃ pre post, (scrapeLoop cfg env url fuel now k st).trace
        = pre ++ Event.backoffSleep j (2 ^ j) :: post
        ∧ Event.openCtx j ∈ post := by
  intro fuel
  induction fuel with
  | zero => intro now k st j hm _; simp [scrapeLoop, navIdxs_nil] at hm
  | succ f ih =>
    intro now k st j hm hj
    cases hout : env.outcome k with
    | ok r =>
      rw [scrapeLoop_ok_eq cfg env url f now k st r hout] at hm
      dsimp only at hm
      rw [navIdxs_shape] at hm
      rcases List.mem_cons.mp hm with h1 | h1
      · exact absurd h1 hj
      · simp [navIdxs_nil] at h1
    | error e =>
      cases f with
      | zero =>
        rw [scrapeLoop_err_last cfg env url now k st e hout] at hm
        dsimp only at hm
        rw [navIdxs_shape] at hm
        rcases List.mem_cons.mp hm with h1 | h1
        · exact absurd h1 hj
        · simp [navIdxs_nil] at h1
      | succ f2 =>
        rw [scrapeLoop_err_step cfg env url f2 now k st e hout] at hm ⊢
        dsimp only at hm ⊢
        rw [navIdxs_shape, navIdxs_backoff_cons] at hm
        rcases List.mem_cons.mp hm with h1 | h1
        · exact absurd h1 hj
        by_cases hjk : j = k + 1
        · subst hjk
          refine ⟨gateEvents (gateDelay cfg now st.lastScrapeTimestamp)
              ++ ((ensureBrowser k st).snd ++
                (Event.openCtx k ::
                 Event.navigate k url (now + gateDelay cfg now st.lastScrapeTimestamp) ::
                 Event.closeCtx k :: [])),
            (scrapeLoop cfg env url (f2 + 1)
              (now + gateDelay cfg now st.lastScrapeTimestamp + env.dur k + 2 ^ (k + 1))
              (k + 1)
              { (ensureBrowser k st).fst with
                  lastScrapeTimestamp :=
                    some (now + gateDelay cfg now st.lastScrapeTimestamp) }).trace,
            by simp [List.append_assoc], ?_⟩
          obtain ⟨pre2, t2, post2, hsplit⟩ := loop_attempt_block cfg env url (f2 + 1)
            (now + gateDelay cfg now st.lastScrapeTimestamp + env.dur k + 2 ^ (k + 1))
            (k + 1)
            { (ensureBrowser k st).fst with
                lastScrapeTimestamp :=
                  some (now + gateDelay cfg now st.lastScrapeTimestamp) }
            (k + 1) h1
          rw [hsplit]
          exact List.mem_append_right _ (List.mem_cons_self _ _)
        · obtain ⟨pre2, post2, heq, hmem⟩ := ih
            (now + gateDelay cfg now st.lastScrapeTimestamp + env.dur k + 2 ^ (k + 1))
            (k + 1)
            { (ensureBrowser k st).fst with
                lastScrapeTimestamp :=
                  some (now + gateDelay cfg now st.lastScrapeTimestamp) }
            j h1 hjk
          refine ⟨gateEvents (gateDelay cfg now st.lastScrapeTimestamp)
              ++ ((ensureBrowser k st).snd ++
                (Event.openCtx k ::
                 Event.navigate k url (now + gateDelay cfg now st.lastScrapeTimestamp) ::
                 Event.closeCtx k :: Event.backoffSleep (k + 1) (2 ^ (k + 1)) :: pre2)),
            post2, ?_, hmem⟩
          rw [heq]
          simp [List.append_assoc]

/-- C3: every backoff suspension `scrapeJob` performs carries exactly
`2 ^ k` seconds for the retry `k ≥ 1` it precedes, and conversely every
retry attempt `k ≥ 1` that occurred was preceded in the trace by exactly
that exponential-backoff suspension, placed before the retry's context is
opened. -/
theorem scrapeJob_backoff_delays (cfg : Config) (env : Env) (url : String)
    (now : Nat) (st : ManagerState) :
    (∀ j s, Event.backoffSleep j s ∈ (scrapeJob cfg env url now st).trace →
        1 ≤ j ∧ s = 2 ^ j)
    ∧ (∀ j, j ∈ navIdxs (scrapeJob cfg env url now st).trace → j ≠ 0 →
        ∃ pre post, (scrapeJob cfg env url now st).trace
          = pre ++ Event.backoffSleep j (2 ^ j) :: post
          ∧ Event.openCtx j ∈ post) :=
  ⟨fun j s hm => loop_backoff_mem cfg env url (cfg.maxRetries + 1) now 0 st j s hm,
   fun j hm hj => loop_nav_backoff cfg env url (cfg.maxRetries + 1) now 0 st j hm hj⟩

theorem scrapeJob_backoff_delays_witness :
    (Event.backoffSleep 1 2 ∈ (scrapeJob cfgW envFail "u" 10 stW).trace)
    ∧ (1 ≤ 1 ∧ 2 = 2 ^ 1) :=
  ⟨by decide,
   (scrapeJob_backoff_delays cfgW envFail "u" 10 stW).1 1 2 (by decide)⟩

theorem ensureBrowser_eq_pos (k : Nat) (st : ManagerState) (b : Nat)
    (hk : k ≠ 0) (hb : st.browserHandle = some b) :
    ensureBrowser k st =
      ({ st with
          browserHandle := some st.nextBrowserId,
          nextBrowserId := st.nextBrowserId + 1 },
       [Event.kill b, Event.launch st.nextBrowserId]) := by
  unfold ensureBrowser
  simp [hk, hb]

theorem ensureBrowser_eq_zero_some (st : ManagerState) (b : Nat)
    (hb : st.browserHandle = some b) :
    ensureBrowser 0 st = (st, []) := by
  unfold ensureBrowser
  simp [hb]

theorem ensureBrowser_eq_zero_none (st : ManagerState)
    (hb : st.browserHandle = none) :
    ensureBrowser 0 st =
      ({ st with
          browserHandle := some st.nextBrowserId,
          nextBrowserId := st.nextBrowserId + 1 },
       [Event.launch st.nextBrowserId]) := by
  unfold ensureBrowser
  simp [hb]

theorem loop_launch_kill_pos (cfg : Config) (env : Env) (url : String) :
    ∀ (fuel now k : Nat) (st : ManagerState) (b : Nat),
      k ≠ 0 → st.browserHandle = some b →
      (launchIds (scrapeLoop cfg env url fuel now k st).trace).length
          = (navIdxs (scrapeLoop cfg env url fuel now k st).trace).length
        ∧ (killIds (scrapeLoop cfg env url fuel now k st).trace).length
            = (navIdxs (scrapeLoop cfg env url fuel now k st).trace).length := by
  intro fuel
  induction fuel with
  | zero => intro now k st b _ _; exact ⟨rfl, rfl⟩
  | succ f ih =>
    intro now k st b hk hb
    cases hout : env.outcome k with
    | ok r =>
      rw [scrapeLoop_ok_eq cfg env url f now k st r hout,
        ensureBrowser_eq_pos k st b hk hb]
      dsimp only
      constructor <;>
        simp [launchIds, killIds, navIdxs, List.filterMap_append,
          filterMap_gateEvents launchIdOf (fun _ => rfl),
          filterMap_gateEvents killIdOf (fun _ => rfl),
          filterMap_gateEvents navIdxOf (fun _ => rfl),
          launchIdOf, killIdOf, navIdxOf]
    | error e =>
      cases f with
      | zero =>
        rw [scrapeLoop_err_last cfg env url now k st e hout,
          ensureBrowser_eq_pos k st b hk hb]
        dsimp only
        constructor <;>
          simp [launchIds, killIds, navIdxs, List.filterMap_append,
            filterMap_gateEvents launchIdOf (fun _ => rfl),
            filterMap_gateEvents killIdOf (fun _ => rfl),
            filterMap_gateEvents navIdxOf (fun _ => rfl),
            launchIdOf, killIdOf, navIdxOf]
      | succ f2 =>
        rw [scrapeLoop_err_step cfg env url f2 now k st e hout,
          ensureBrowser_eq_pos k st b hk hb]
        dsimp only
        have hrec := ih
          (now + gateDelay cfg now st.lastScrapeTimestamp + env.dur k + 2 ^ (k + 1))
          (k + 1)
          { st with
              browserHandle := some st.nextBrowserId,
              nextBrowserId := st.nextBrowserId + 1,
              lastScrapeTimestamp := some (now + gateDelay cfg now st.lastScrapeTimestamp) }
          st.nextBrowserId (by omega) rfl
        refine ⟨?_, ?_⟩
        · simpa [launchIds, killIds, navIdxs, List.filterMap_append,
            filterMap_gateEvents launchIdOf (fun _ => rfl),
            filterMap_gateEvents navIdxOf (fun _ => rfl),
            launchIdOf, navIdxOf] using hrec.1
        · simpa [launchIds, killIds, navIdxs, List.filterMap_append,
            filterMap_gateEvents killIdOf (fun _ => rfl),
            filterMap_gateEvents navIdxOf (fun _ => rfl),
            killIdOf, navIdxOf] using hrec.2

theorem handleOK_ensure (k : Nat) (st : ManagerState)
    (h : handleOK st = true) : handleOK (ensureBrowser k st).fst = true := by
  unfold handleOK ensureBrowser at *
  by_cases h0 : k = 0 <;> cases hb : st.browserHandle <;> simp [h0, hb] at *
  <;> omega

theorem loop_restart (cfg : Config) (env : Env) (url : String) :
    ∀ (fuel now k : Nat) (st : ManagerState),
      handleOK st = true →
      (k ≠ 0 → st.browserHandle.isSome = true) →
      ∀ j, j ∈ navIdxs (scrapeLoop cfg env url fuel now k st).trace → j ≠ 0 →
      ∃ o n2 pre post, o ≠ n2
        ∧ (scrapeLoop cfg env url fuel now k st).trace
            = pre ++ Event.kill o :: Event.launch n2 :: Event.openCtx j :: post := by
  intro fuel
  induction fuel with
  | zero => intro now k st _ _ j hm _; simp [scrapeLoop, navIdxs_nil] at hm
  | succ f ih =>
    intro now k st hOK hsome j hm hj0
    cases hout : env.outcome k with
    | ok r =>
      rw [scrapeLoop_ok_eq cfg env url f now k st r hout] at hm ⊢
      dsimp only at hm ⊢
      rw [navIdxs_shape] at hm
      rcases List.mem_cons.mp hm with h1 | h1
      · subst h1
        obtain ⟨b, hb⟩ := Option.isSome_iff_exists.mp (hsome hj0)
        have hblt : b < st.nextBrowserId := by
          unfold handleOK at hOK
          rw [hb] at hOK
          simpa using hOK
        rw [ensureBrowser_eq_pos j st b hj0 hb]
        dsimp only
        exact ⟨b, st.nextBrowserId,
          gateEvents (gateDelay cfg now st.lastScrapeTimestamp),
          Event.navigate j url (now + gateDelay cfg now st.lastScrapeTimestamp)
            :: Event.closeCtx j :: [],
          by omega, by simp⟩
      · simp [navIdxs_nil] at h1
    | error e =>
      cases f with
      | zero =>
        rw [scrapeLoop_err_last cfg env url now k st e hout] at hm ⊢
        dsimp only at hm ⊢
        rw [navIdxs_shape] at hm
        rcases List.mem_cons.mp hm with h1 | h1
        · subst h1
          obtain ⟨b, hb⟩ := Option.isSome_iff_exists.mp (hsome hj0)
          have hblt : b < st.nextBrowserId := by
            unfold handleOK at hOK
            rw [hb] at hOK
            simpa using hOK
          rw [ensureBrowser_eq_pos j st b hj0 hb]
          dsimp only
          exact ⟨b, st.nextBrowserId,
            gateEvents (gateDelay cfg now st.lastScrapeTimestamp),
            Event.navigate j url (now + gateDelay cfg now st.lastScrapeTimestamp)
              :: Event.closeCtx j :: [],
            by omega, by simp⟩
        · simp [navIdxs_nil] at h1
      | succ f2 =>
        rw [scrapeLoop_err_step cfg env url f2 now k st e hout] at hm ⊢
        dsimp only at hm ⊢
        rw [navIdxs_shape, navIdxs_backoff_cons] at hm
        rcases List.mem_cons.mp hm with h1 | h1
        · subst h1
          obtain ⟨b, hb⟩ := Option.isSome_iff_exists.mp (hsome hj0)
          have hblt : b < st.nextBrowserId := by
            unfold handleOK at hOK
            rw [hb] at hOK
            simpa using hOK
          rw [ensureBrowser_eq_pos j st b hj0 hb]
          dsimp only
          refine ⟨b, st.nextBrowserId,
            gateEvents (gateDelay cfg now st.lastScrapeTimestamp),
            Event.navigate j url (now + gateDelay cfg now st.lastScrapeTimestamp)
              :: Event.closeCtx j ::
              Event.backoffSleep (j + 1) (2 ^ (j + 1)) ::
              (scrapeLoop cfg env url (f2 + 1)
                (now + gateDelay cfg now st.lastScrapeTimestamp + env.dur j + 2 ^ (j + 1))
                (j + 1)
                { ({ st with
                      browserHandle := some st.nextBrowserId,
                      nextBrowserId := st.nextBrowserId + 1 } : ManagerState) with
                    lastScrapeTimestamp :=
                      some (now + gateDelay cfg now st.lastScrapeTimestamp) }).trace,
            by omega, by simp⟩
        · have hOK2 : handleOK
              { (ensureBrowser k st).fst with
                  lastScrapeTimestamp :=
                    some (now + gateDelay cfg now st.lastScrapeTimestamp) } = true := by
            have := handleOK_ensure k st hOK
            unfold handleOK at this ⊢
            exact this
          obtain ⟨o, n2, pre2, post2, hneq, heq⟩ := ih
            (now + gateDelay cfg now st.lastScrapeTimestamp + env.dur k + 2 ^ (k + 1))
            (k + 1)
            { (ensureBrowser k st).fst with
                lastScrapeTimestamp :=
                  some (now + gateDelay cfg now st.lastScrapeTimestamp) }
            hOK2 (fun _ => ensure_fst_isSome k st) j h1 hj0
          refine ⟨o, n2,
            gateEvents (gateDelay cfg now st.lastScrapeTimestamp)
              ++ ((ensureBrowser k st).snd ++
                (Event.openCtx k ::
                 Event.navigate k url (now + gateDelay cfg now st.lastScrapeTimestamp) ::
                 Event.closeCtx k :: Event.backoffSleep (k + 1) (2 ^ (k + 1)) :: pre2)),
            post2, hneq, ?_⟩
          rw [heq]
          simp [List.append_assoc]

/-- C4: over a whole `scrapeJob` call, when a browser is already owned the
number of launches (and of kills) is one less than the number of attempts
— the first attempt reuses the existing process — while with no browser
owned the first attempt launches one, so launches equal attempts and
kills are one fewer; and before every attempt after a failure the trace
shows, contiguously, the owned process being terminated and a distinct
fresh one launched immediately before that attempt's context opens. -/
theorem scrapeJob_browser_lifecycle (cfg : Config) (env : Env) (url : String)
    (now : Nat) (st : ManagerState) (hOK : handleOK st = true) :
    (∀ b, st.browserHandle = some b →
        (launchIds (scrapeJob cfg env url now st).trace).length + 1
            = (navIdxs (scrapeJob cfg env url now st).trace).length
          ∧ (killIds (scrapeJob cfg env url now st).trace).length + 1
              = (navIdxs (scrapeJob cfg env url now st).trace).length)
    ∧ (st.browserHandle = none →
        (launchIds (scrapeJob cfg env url now st).trace).length
            = (navIdxs (scrapeJob cfg env url now st).trace).length
          ∧ (killIds (scrapeJob cfg env url now st).trace).length + 1
              = (navIdxs (scrapeJob cfg env url now st).trace).length)
    ∧ (∀ j, j ∈ navIdxs (scrapeJob cfg env url now st).trace → j ≠ 0 →
        ∃ o n2 pre post, o ≠ n2
          ∧ (scrapeJob cfg env url now st).trace
              = pre ++ Event.kill o :: Event.launch n2 :: Event.openCtx j :: post) := by
  refine ⟨fun b hb => ?_, fun hb => ?_,
    fun j hm hj => loop_restart cfg env url (cfg.maxRetries + 1) now 0 st hOK
      (fun h => absurd rfl h) j hm hj⟩
  · simp only [scrapeJob]
    cases hout : env.outcome 0 with
    | ok r =>
      rw [scrapeLoop_ok_eq cfg env url cfg.maxRetries now 0 st r hout,
        ensureBrowser_eq_zero_some st b hb]
      dsimp only
      constructor <;>
        simp [launchIds, killIds, navIdxs, List.filterMap_append,
          filterMap_gateEvents launchIdOf (fun _ => rfl),
          filterMap_gateEvents killIdOf (fun _ => rfl),
          filterMap_gateEvents navIdxOf (fun _ => rfl),
          launchIdOf, killIdOf, navIdxOf]
    | error e =>
      rcases hM : cfg.maxRetries with _ | f2
      · rw [Nat.zero_add, scrapeLoop_err_last cfg env url now 0 st e hout,
          ensureBrowser_eq_zero_some st b hb]
        dsimp only
        constructor <;>
          simp [launchIds, killIds, navIdxs, List.filterMap_append,
            filterMap_gateEvents launchIdOf (fun _ => rfl),
            filterMap_gateEvents killIdOf (fun _ => rfl),
            filterMap_gateEvents navIdxOf (fun _ => rfl),
            launchIdOf, killIdOf, navIdxOf]
      · rw [scrapeLoop_err_step cfg env url f2 now 0 st e hout,
          ensureBrowser_eq_zero_some st b hb]
        dsimp only
        have hrec := loop_launch_kill_pos cfg env url (f2 + 1)
          (now + gateDelay cfg now st.lastScrapeTimestamp + env.dur 0 + 2 ^ (0 + 1))
          (0 + 1)
          { st with
              lastScrapeTimestamp := some (now + gateDelay cfg now st.lastScrapeTimestamp) }
          b (by omega) (by simpa using hb)
        constructor
        · have := hrec.1
          simp only [launchIds, killIds, navIdxs, List.filterMap_append,
            List.filterMap_cons, List.filterMap_nil,
            filterMap_gateEvents launchIdOf (fun _ => rfl),
            filterMap_gateEvents navIdxOf (fun _ => rfl),
            launchIdOf, navIdxOf, List.length_append,
            List.length_cons, List.length_nil] at this ⊢
          omega
        · have := hrec.2
          simp only [launchIds, killIds, navIdxs, List.filterMap_append,
            List.filterMap_cons, List.filterMap_nil,
            filterMap_gateEvents killIdOf (fun _ => rfl),
            filterMap_gateEvents navIdxOf (fun _ => rfl),
            killIdOf, navIdxOf, List.length_append,
            List.length_cons, List.length_nil] at this ⊢
          omega
  · simp only [scrapeJob]
    cases hout : env.outcome 0 with
    | ok r =>
      rw [scrapeLoop_ok_eq cfg env url cfg.maxRetries now 0 st r hout,
        ensureBrowser_eq_zero_none st hb]
      dsimp only
      constructor <;>
        simp [launchIds, killIds, navIdxs, List.filterMap_append,
          filterMap_gateEvents launchIdOf (fun _ => rfl),
          filterMap_gateEvents killIdOf (fun _ => rfl),
          filterMap_gateEvents navIdxOf (fun _ => rfl),
          launchIdOf, killIdOf, navIdxOf]
    | error e =>
      rcases hM : cfg.maxRetries with _ | f2
      · rw [Nat.zero_add, scrapeLoop_err_last cfg env url now 0 st e hout,
          ensureBrowser_eq_zero_none st hb]
        dsimp only
        constructor <;>
          simp [launchIds, killIds, navIdxs, List.filterMap_append,
            filterMap_gateEvents launchIdOf (fun _ => rfl),
            filterMap_gateEvents killIdOf (fun _ => rfl),
            filterMap_gateEvents navIdxOf (fun _ => rfl),
            launchIdOf, killIdOf, navIdxOf]
      · rw [scrapeLoop_err_step cfg env url f2 now 0 st e hout,
          ensureBrowser_eq_zero_none st hb]
        dsimp only
        have hrec := loop_launch_kill_pos cfg env url (f2 + 1)
          (now + gateDelay cfg now st.lastScrapeTimestamp + env.dur 0 + 2 ^ (0 + 1))
          (0 + 1)
          { st with
              browserHandle := some st.nextBrowserId,
              nextBrowserId := st.nextBrowserId + 1,
              lastScrapeTimestamp := some (now + gateDelay cfg now st.lastScrapeTimestamp) }
          st.nextBrowserId (by omega) rfl
        constructor
        · have := hrec.1
          simp only [launchIds, killIds, navIdxs, List.filterMap_append,
            List.filterMap_cons, List.filterMap_nil,
            filterMap_gateEvents launchIdOf (fun _ => rfl),
            filterMap_gateEvents navIdxOf (fun _ => rfl),
            launchIdOf, navIdxOf, List.length_append,
            List.length_cons, List.length_nil] at this ⊢
          omega
        · have := hrec.2
          simp only [launchIds, killIds, navIdxs, List.filterMap_append,
            List.filterMap_cons, List.filterMap_nil,
            filterMap_gateEvents killIdOf (fun _ => rfl),
            filterMap_gateEvents navIdxOf (fun _ => rfl),
            killIdOf, navIdxOf, List.length_append,
            List.length_cons, List.length_nil] at this ⊢
          omega

theorem scrapeJob_browser_lifecycle_witness :
    (handleOK stW = true ∧ stW.browserHandle = some 1)
    ∧ ((launchIds (scrapeJob cfgW envFail "u" 10 stW).trace).length + 1
          = (navIdxs (scrapeJob cfgW envFail "u" 10 stW).trace).length
       ∧ (killIds (scrapeJob cfgW envFail "u" 10 stW).trace).length + 1
          = (navIdxs (scrapeJob cfgW envFail "u" 10 stW).trace).length) :=
  ⟨⟨by decide, rfl⟩,
   (scrapeJob_browser_lifecycle cfgW envFail "u" 10 stW (by decide)).1 1 rfl⟩

/-- C7: `cleanup()` is total on the manager state and idempotent: when a
browser is owned it terminates exactly that process and disowns it, when
none is owned it is a no-op that does not fail, and a second `cleanup()`
right after a first one changes nothing and performs no action. -/
theorem cleanup_idempotent_total (st : ManagerState) :
    (st.browserHandle = none → cleanup st = (st, []))
    ∧ (∀ b, st.browserHandle = some b →
        cleanup st = ({ st with browserHandle := none }, [Event.kill b]))
    ∧ (cleanup st).fst.browserHandle = none
    ∧ cleanup (cleanup st).fst = ((cleanup st).fst, []) := by
  cases hb : st.browserHandle with
  | none =>
    refine ⟨fun _ => ?_, fun b h2 => ?_, ?_, ?_⟩ <;>
      simp [cleanup, hb] at *
  | some b =>
    refine ⟨fun h2 => ?_, fun b2 h2 => ?_, ?_, ?_⟩
    · cases h2
    · cases h2
      simp [cleanup, hb]
    · simp [cleanup, hb]
    · simp [cleanup, hb]

theorem cleanup_idempotent_total_witness :
    (stW.browserHandle = some 1)
    ∧ cleanup stW = ({ stW with browserHandle := none }, [Event.kill 1])
    ∧ cleanup (cleanup stW).fst = ((cleanup stW).fst, []) :=
  ⟨rfl, (cleanup_idempotent_total stW).2.1 1 rfl,
   (cleanup_idempotent_total stW).2.2.2⟩

theorem gateEvents_map_setUrl (u : String) (d : Nat) :
    (gateEvents d).map (setUrl u) = gateEvents d := by
  unfold gateEvents
  split <;> simp [setUrl]

theorem ensure_snd_map_setUrl (u : String) (k : Nat) (st : ManagerState) :
    ((ensureBrowser k st).snd).map (setUrl u) = (ensureBrowser k st).snd := by
  unfold ensureBrowser
  by_cases h0 : k = 0 <;> cases hb : st.browserHandle <;> simp [h0, hb, setUrl]

theorem loop_url_independent (cfg : Config) (env : Env) (u1 u2 : String) :
    ∀ (fuel now k : Nat) (st : ManagerState),
      (scrapeLoop cfg env u1 fuel now k st).result
          = (scrapeLoop cfg env u2 fuel now k st).result
        ∧ (scrapeLoop cfg env u1 fuel now k st).finalTime
            = (scrapeLoop cfg env u2 fuel now k st).finalTime
        ∧ (scrapeLoop cfg env u1 fuel now k st).finalState
            = (scrapeLoop cfg env u2 fuel now k st).finalState
        ∧ ((scrapeLoop cfg env u1 fuel now k st).trace).map (setUrl u2)
            = (scrapeLoop cfg env u2 fuel now k st).trace := by
  intro fuel
  induction fuel with
  | zero => intro now k st; exact ⟨rfl, rfl, rfl, rfl⟩
  | succ f ih =>
    intro now k st
    cases hout : env.outcome k with
    | ok r =>
      rw [scrapeLoop_ok_eq cfg env u1 f now k st r hout,
        scrapeLoop_ok_eq cfg env u2 f now k st r hout]
      refine ⟨rfl, rfl, rfl, ?_⟩
      simp [gateEvents_map_setUrl, ensure_snd_map_setUrl, setUrl]
    | error e =>
      cases f with
      | zero =>
        rw [scrapeLoop_err_last cfg env u1 now k st e hout,
          scrapeLoop_err_last cfg env u2 now k st e hout]
        refine ⟨rfl, rfl, rfl, ?_⟩
        simp [gateEvents_map_setUrl, ensure_snd_map_setUrl, setUrl]
      | succ f2 =>
        rw [scrapeLoop_err_step cfg env u1 f2 now k st e hout,
          scrapeLoop_err_step cfg env u2 f2 now k st e hout]
        dsimp only
        obtain ⟨h1, h2, h3, h4⟩ := ih
          (now + gateDelay cfg now st.lastScrapeTimestamp + env.dur k + 2 ^ (k + 1))
          (k + 1)
          { (ensureBrowser k st).fst with
              lastScrapeTimestamp :=
                some (now + gateDelay cfg now st.lastScrapeTimestamp) }
        refine ⟨h1, h2, h3, ?_⟩
        simp [gateEvents_map_setUrl, ensure_snd_map_setUrl, setUrl, h4]

end LnkdApb.Scraper

namespace LnkdApb.Form

theorem leadsWith_iff : ∀ (pat s : List Char),
    leadsWith s pat = true ↔ ∃ t, s = pat ++ t := by
  intro pat
  induction pat with
  | nil =>
    intro s
    refine ⟨fun _ => ⟨s, rfl⟩, fun _ => ?_⟩
    cases s <;> rfl
  | cons d p ihp =>
    intro s
    cases s with
    | nil =>
      constructor
      · intro h; cases h
      · rintro ⟨t, ht⟩; cases ht
    | cons c s2 =>
      constructor
      · intro h
        simp only [leadsWith, Bool.and_eq_true] at h
        obtain ⟨h1, h2⟩ := h
        have hc : c = d := beq_iff_eq.mp h1
        obtain ⟨t, ht⟩ := (ihp s2).mp h2
        exact ⟨t, by rw [hc, ht]; rfl⟩
      · rintro ⟨t, ht⟩
        simp only [List.cons_append] at ht
        injection ht with hc hs
        simp only [leadsWith, Bool.and_eq_true]
        exact ⟨beq_iff_eq.mpr hc, (ihp s2).mpr ⟨t, hs⟩⟩

theorem jsIncludes_iff : ∀ (s pat : List Char),
    jsIncludes s pat = true ↔ ∃ pre post, s = pre ++ pat ++ post := by
  intro s
  induction s with
  | nil =>
    intro pat
    simp only [jsIncludes]
    rw [leadsWith_iff]
    constructor
    · rintro ⟨t, ht⟩
      exact ⟨[], t, by simpa using ht⟩
    · rintro ⟨pre, post, h⟩
      obtain ⟨hp1, hp2⟩ := List.append_eq_nil.mp h.symm
      obtain ⟨hq1, hq2⟩ := List.append_eq_nil.mp hp1
      exact ⟨[], by rw [hq2]; rfl⟩
  | cons c s2 ihs =>
    intro pat
    simp only [jsIncludes]
    rw [Bool.or_eq_true, leadsWith_iff, ihs pat]
    constructor
    · rintro (⟨t, ht⟩ | ⟨pre, post, h⟩)
      · exact ⟨[], t, by simpa using ht⟩
      · exact ⟨c :: pre, post, by simp [h]⟩
    · rintro ⟨pre, post, h⟩
      cases pre with
      | nil => exact Or.inl ⟨post, by simpa using h⟩
      | cons x pre2 =>
        right
        simp only [List.cons_append, List.append_assoc] at h
        injection h with h1 h2
        exact ⟨pre2, post, by simpa [List.append_assoc] using h2⟩

theorem jsIncludes_extend (a m b pat : List Char)
    (h : jsIncludes m pat = true) : jsIncludes (a ++ m ++ b) pat = true := by
  obtain ⟨p, q, hm⟩ := (jsIncludes_iff m pat).mp h
  exact (jsIncludes_iff _ pat).mpr
    ⟨a ++ p, q ++ b, by simp [hm, List.append_assoc]⟩

theorem jsTrim_within (s : List Char) : ∃ a b, s = a ++ jsTrim s ++ b := by
  refine ⟨s.takeWhile Char.isWhitespace,
    ((s.dropWhile Char.isWhitespace).reverse.takeWhile Char.isWhitespace).reverse, ?_⟩
  have h2 : s.dropWhile Char.isWhitespace
      = jsTrim s
        ++ ((s.dropWhile Char.isWhitespace).reverse.takeWhile Char.isWhitespace).reverse := by
    have h3 : (s.dropWhile Char.isWhitespace).reverse
        = (s.dropWhile Char.isWhitespace).reverse.takeWhile Char.isWhitespace
          ++ (s.dropWhile Char.isWhitespace).reverse.dropWhile Char.isWhitespace :=
      (List.takeWhile_append_dropWhile _ _).symm
    have h4 : s.dropWhile Char.isWhitespace
        = ((s.dropWhile Char.isWhitespace).reverse.takeWhile Char.isWhitespace
            ++ (s.dropWhile Char.isWhitespace).reverse.dropWhile Char.isWhitespace).reverse := by
      rw [← h3, List.reverse_reverse]
    rw [List.reverse_append] at h4
    exact h4
  conv_lhs => rw [← List.takeWhile_append_dropWhile Char.isWhitespace s, h2]
  rw [List.append_assoc]

theorem jsIncludes_dropWhile (pat : List Char) (hne : pat ≠ [])
    (hws : ∀ c ∈ pat, c.isWhitespace = false) :
    ∀ s, jsIncludes s pat = true →
      jsIncludes (s.dropWhile Char.isWhitespace) pat = true := by
  intro s
  induction s with
  | nil => intro h; simpa using h
  | cons c s2 ihs =>
    intro h
    by_cases hw : c.isWhitespace = true
    · rw [List.dropWhile_cons, if_pos hw]
      apply ihs
      simp only [jsIncludes, Bool.or_eq_true] at h
      rcases h with h | h
      · obtain ⟨t, ht⟩ := (leadsWith_iff pat (c :: s2)).mp h
        cases pat with
        | nil => exact absurd rfl hne
        | cons d p =>
          simp only [List.cons_append] at ht
          injection ht with h1 _
          have hd := hws d (List.mem_cons_self d p)
          rw [h1] at hw
          rw [hd] at hw
          cases hw
      · exact h
    · rw [List.dropWhile_cons, if_neg hw]
      exact h

theorem jsIncludes_reverse (s pat : List Char) :
    jsIncludes s.reverse pat.reverse = true ↔ jsIncludes s pat = true := by
  rw [jsIncludes_iff, jsIncludes_iff]
  constructor
  · rintro ⟨p, q, h⟩
    refine ⟨q.reverse, p.reverse, ?_⟩
    have h2 := congrArg List.reverse h
    simpa [List.reverse_append, List.append_assoc] using h2
  · rintro ⟨p, q, h⟩
    refine ⟨q.reverse, p.reverse, ?_⟩
    have h2 := congrArg List.reverse h
    simpa [List.reverse_append, List.append_assoc] using h2

theorem jsIncludes_jsTrim (pat : List Char) (hne : pat ≠ [])
    (hws : ∀ c ∈ pat, c.isWhitespace = false) (s : List Char)
    (h : jsIncludes s pat = true) : jsIncludes (jsTrim s) pat = true := by
  have h1 := jsIncludes_dropWhile pat hne hws s h
  have h2 : jsIncludes (s.dropWhile Char.isWhitespace).reverse pat.reverse = true :=
    (jsIncludes_reverse _ pat).mpr h1
  have hne2 : pat.reverse ≠ [] := by simpa using hne
  have hws2 : ∀ c ∈ pat.reverse, c.isWhitespace = false :=
    fun c hc => hws c (List.mem_reverse.mp hc)
  have h3 := jsIncludes_dropWhile pat.reverse hne2 hws2
    (s.dropWhile Char.isWhitespace).reverse h2
  rw [← List.reverse_reverse
    (((s.dropWhile Char.isWhitespace).reverse).dropWhile Char.isWhitespace)] at h3
  exact (jsIncludes_reverse _ pat).mp h3

theorem jsIncludes_of_jsTrim (s pat : List Char)
    (h : jsIncludes (jsTrim s) pat = true) : jsIncludes s pat = true := by
  obtain ⟨a, b, hs⟩ := jsTrim_within s
  rw [hs]
  exact jsIncludes_extend a (jsTrim s) b pat h

end LnkdApb.Form

namespace LnkdApb

/-- C8: the scrape operation itself enforces no URL schema — its result,
final time, final state and trace (URLs aside) are identical for any two
URL strings — while the calling form performs the validation: the submit
handler issues the backend request (and it is exactly `uploadJob`, a POST
of `/job/upload` with the trimmed URL as body) precisely when the trimmed
URL is non-empty and contains both `linkedin.com` and `jobs/view`;
otherwise it shows an error and issues no request. -/
theorem scrapeJob_no_url_schema_form_validates :
    (∀ (cfg : Scraper.Config) (env : Scraper.Env) (u1 u2 : String) (now : Nat)
        (st : Scraper.ManagerState),
        (Scraper.scrapeJob cfg env u1 now st).result
            = (Scraper.scrapeJob cfg env u2 now st).result
          ∧ (Scraper.scrapeJob cfg env u1 now st).finalTime
              = (Scraper.scrapeJob cfg env u2 now st).finalTime
          ∧ (Scraper.scrapeJob cfg env u1 now st).finalState
              = (Scraper.scrapeJob cfg env u2 now st).finalState
          ∧ ((Scraper.scrapeJob cfg env u1 now st).trace).map (Scraper.setUrl u2)
              = (Scraper.scrapeJob cfg env u2 now st).trace)
    ∧ (∀ url : List Char,
        ((∃ r, Form.handleSubmit url = Form.FormAction.request r)
          ↔ (Form.jsTrim url ≠ []
              ∧ Form.jsIncludes (Form.jsTrim url) Form.linkedinLit = true
              ∧ Form.jsIncludes (Form.jsTrim url) Form.jobsViewLit = true))
        ∧ ∀ r, Form.handleSubmit url = Form.FormAction.request r →
            r = Form.uploadJob (Form.jsTrim url)) := by
  constructor
  · intro cfg env u1 u2 now st
    exact Scraper.loop_url_independent cfg env u1 u2 (cfg.maxRetries + 1) now 0 st
  · intro url
    have hlnkne : Form.linkedinLit ≠ [] := by decide
    have hjvne : Form.jobsViewLit ≠ [] := by decide
    have hlnkws : ∀ c ∈ Form.linkedinLit, c.isWhitespace = false := by decide
    have hjvws : ∀ c ∈ Form.jobsViewLit, c.isWhitespace = false := by decide
    by_cases h0 : Form.jsTrim url = []
    · refine ⟨⟨?_, ?_⟩, ?_⟩
      · rintro ⟨r, hr⟩
        simp [Form.handleSubmit, h0] at hr
      · rintro ⟨hne, _⟩
        exact absurd h0 hne
      · intro r hr
        simp [Form.handleSubmit, h0] at hr
    · by_cases h1 : Form.jsIncludes url Form.linkedinLit = true
      · by_cases hb2 : Form.jsIncludes url Form.jobsViewLit = true
        · have hs : Form.handleSubmit url
              = Form.FormAction.request (Form.uploadJob (Form.jsTrim url)) := by
            simp [Form.handleSubmit, h0, h1, hb2]
          refine ⟨⟨?_, ?_⟩, ?_⟩
          · intro _
            exact ⟨h0, Form.jsIncludes_jsTrim _ hlnkne hlnkws url h1,
              Form.jsIncludes_jsTrim _ hjvne hjvws url hb2⟩
          · intro _
            exact ⟨_, hs⟩
          · intro r hr
            rw [hs] at hr
            injection hr with h2
            exact h2.symm
        · have hs : Form.handleSubmit url
              = Form.FormAction.toastError "Please enter a valid LinkedIn job posting URL" := by
            simp [Form.handleSubmit, h0, hb2]
          refine ⟨⟨?_, ?_⟩, ?_⟩
          · rintro ⟨r, hr⟩
            rw [hs] at hr
            cases hr
          · rintro ⟨_, _, h2t⟩
            exact absurd (Form.jsIncludes_of_jsTrim url _ h2t) hb2
          · intro r hr
            rw [hs] at hr
            cases hr
      · have hs : Form.handleSubmit url
            = Form.FormAction.toastError "Please enter a valid LinkedIn job posting URL" := by
          simp [Form.handleSubmit, h0, h1]
        refine ⟨⟨?_, ?_⟩, ?_⟩
        · rintro ⟨r, hr⟩
          rw [hs] at hr
          cases hr
        · rintro ⟨_, h1t, _⟩
          exact absurd (Form.jsIncludes_of_jsTrim url _ h1t) h1
        · intro r hr
          rw [hs] at hr
          cases hr

theorem scrapeJob_no_url_schema_form_validates_witness :
    (Form.jsTrim "https://www.linkedin.com/jobs/view/123".toList ≠ []
     ∧ Form.jsIncludes (Form.jsTrim "https://www.linkedin.com/jobs/view/123".toList)
         Form.linkedinLit = true
     ∧ Form.jsIncludes (Form.jsTrim "https://www.linkedin.com/jobs/view/123".toList)
         Form.jobsViewLit = true)
    ∧ (∃ r, Form.handleSubmit "https://www.linkedin.com/jobs/view/123".toList
        = Form.FormAction.request r) :=
  ⟨by decide,
   ((scrapeJob_no_url_schema_form_validates.2
      "https://www.linkedin.com/jobs/view/123".toList).1).mpr (by decide)⟩

/-- C9: in the resume-upload component, a selected file whose MIME type is
neither PDF nor DOCX, or whose size exceeds 10MB, is rejected at selection
time: an error toast is returned, the component state (in particular the
stored file) is left exactly as it was, and the upload handler's candidate
file is unchanged, so no upload request is ever made for the rejected
file; a file passing both checks is stored with `uploadSuccess` and
`extractedInfo` reset. -/
theorem resume_select_validation (st : Resume.UploadState) (f : Resume.FileInfo) :
    (((f.mime ≠ "application/pdf"
        ∧ f.mime ≠ "application/vnd.openxmlformats-officedocument.wordprocessingml.document")
        ∨ f.size > 10 * 1024 * 1024) →
      (∃ msg, Resume.handleFileSelect st (some f) = (st, some msg))
        ∧ Resume.handleUpload (Resume.handleFileSelect st (some f)).fst
            = Resume.handleUpload st)
    ∧ ((f.mime = "application/pdf"
        ∨ f.mime = "application/vnd.openxmlformats-officedocument.wordprocessingml.document") →
      f.size ≤ 10 * 1024 * 1024 →
      Resume.handleFileSelect st (some f)
        = (⟨some f, false, none⟩, none)) := by
  have hmem : f.mime ∈ Resume.validTypes
      ↔ (f.mime = "application/pdf"
          ∨ f.mime = "application/vnd.openxmlformats-officedocument.wordprocessingml.document") := by
    simp [Resume.validTypes]
  constructor
  · intro hrej
    rcases hrej with hmime | hsize
    · have hno : f.mime ∉ Resume.validTypes := by
        intro hin
        rcases hmem.mp hin with h | h
        · exact hmime.1 h
        · exact hmime.2 h
      constructor
      · exact ⟨"Please upload a PDF or DOCX file",
          by simp [Resume.handleFileSelect, hno]⟩
      · simp [Resume.handleFileSelect, hno]
    · have hsize2 : 10485760 < f.size := by omega
      by_cases hc : f.mime ∈ Resume.validTypes
      · constructor
        · exact ⟨"File size must be less than 10MB",
            by simp [Resume.handleFileSelect, hc, hsize2]⟩
        · simp [Resume.handleFileSelect, hc, hsize2]
      · constructor
        · exact ⟨"Please upload a PDF or DOCX file",
            by simp [Resume.handleFileSelect, hc]⟩
        · simp [Resume.handleFileSelect, hc]
  · intro hmime hsize
    have hc : f.mime ∈ Resume.validTypes := hmem.mpr hmime
    have hsize2 : ¬ (10485760 < f.size) := by omega
    simp [Resume.handleFileSelect, hc, hsize2]

theorem resume_select_validation_witness :
    ((⟨"text/plain", 100⟩ : Resume.FileInfo).mime ≠ "application/pdf"
     ∧ (⟨"text/plain", 100⟩ : Resume.FileInfo).mime
         ≠ "application/vnd.openxmlformats-officedocument.wordprocessingml.document")
    ∧ ((∃ msg, Resume.handleFileSelect ⟨none, false, none⟩ (some ⟨"text/plain", 100⟩)
          = (⟨none, false, none⟩, some msg))
       ∧ Resume.handleUpload
            (Resume.handleFileSelect ⟨none, false, none⟩ (some ⟨"text/plain", 100⟩)).fst
          = Resume.handleUpload ⟨none, false, none⟩) :=
  ⟨⟨by decide, by decide⟩,
   (resume_select_validation ⟨none, false, none⟩ ⟨"text/plain", 100⟩).1
     (Or.inl ⟨by decide, by decide⟩)⟩

/-- C10: the response interceptor of the shared axios instance passes
successes through and, for every error, logs a message derived from the
error's shape and re-rejects the very same error object; consequently
every API helper (`uploadResume`, `getResume`, `startInterview`,
`submitAnswer`, `getFeedback`, `uploadJob`, `getJob`, `listJobs`,
`searchJobs`, `deleteJob`) propagates the untouched error to its caller —
no error is swallowed or replaced by a substitute value. -/
theorem api_error_propagation :
    (∀ (α : Type) (e : Api.AxiosError),
        @Api.responseInterceptor α (Except.error e)
          = (some (Api.interceptorLog e), Except.error e))
    ∧ (∀ (α : Type) (r : Api.AxiosResponse α),
        @Api.responseInterceptor α (Except.ok r) = (none, Except.ok r))
    ∧ (∀ (α : Type) (e : Api.AxiosError),
        @Api.uploadResume α (Except.error e) = Except.error e
        ∧ @Api.getResume α (Except.error e) = Except.error e
        ∧ @Api.startInterview α (Except.error e) = Except.error e
        ∧ @Api.submitAnswer α (Except.error e) = Except.error e
        ∧ @Api.getFeedback α (Except.error e) = Except.error e
        ∧ @Api.uploadJob α (Except.error e) = Except.error e
        ∧ @Api.getJob α (Except.error e) = Except.error e
        ∧ @Api.listJobs α (Except.error e) = Except.error e
        ∧ @Api.searchJobs α (Except.error e) = Except.error e
        ∧ @Api.deleteJob α (Except.error e) = Except.error e) :=
  ⟨fun _ _ => rfl, fun _ _ => rfl,
   fun _ _ => ⟨rfl, rfl, rfl, rfl, rfl, rfl, rfl, rfl, rfl, rfl⟩⟩

end LnkdApb
